import Mathlib

/-
  Verification development for WatCon/generate_dynamic_networks.py.

  The Python source is shallowly embedded: coordinates are exact rationals,
  Euclidean-distance comparisons `dist <= r` are carried out without square
  roots as `0 <= r && dist^2 <= r^2` (equivalent for real distances), scipy's
  cKDTree `query(..., k, distance_upper_bound)` is modelled by `kQuery`
  (all indexed points within the cutoff, sorted by increasing distance with
  ties broken by index, truncated to the first k), and fallible Python code
  (raised exceptions) is modelled with `Except String`.
-/

namespace WatCon

abbrev Pt := ℚ × ℚ × ℚ

def ptDefault : Pt := ((0 : ℚ), (0 : ℚ), (0 : ℚ))

def ptSub (p q : Pt) : Pt := (p.1 - q.1, p.2.1 - q.2.1, p.2.2 - q.2.2)

/-- Squared Euclidean distance between two points. -/
def sqDist (p q : Pt) : ℚ :=
  (p.1 - q.1) ^ 2 + (p.2.1 - q.2.1) ^ 2 + (p.2.2 - q.2.2) ^ 2

/-- Square-root-free embedding of the comparison `dist(p,q) <= r` used
throughout the source: for real distances, `sqrt d <= r` iff
`0 <= r` and `d <= r^2`. -/
def distLE (sqd r : ℚ) : Bool :=
  decide (0 ≤ r) && decide (sqd ≤ r ^ 2)

/-- WaterAtom from the source (index, atom name, residue number, coordinates). -/
structure WaterAtom where
  index : ℕ
  name : String
  resid : ℕ
  coords : Pt
deriving DecidableEq, Repr

/-- WaterMolecule from the source: O, H1, H2 atoms plus molecule index and resid. -/
structure WaterMolecule where
  index : ℕ
  O : WaterAtom
  H1 : WaterAtom
  H2 : WaterAtom
  resid : ℕ
deriving DecidableEq, Repr

/-- OtherAtom from the source (protein / misc atom). -/
structure OtherAtom where
  index : ℕ
  name : String
  resname : String
  resid : ℕ
  coords : Pt
  hbonding : Bool
deriving DecidableEq, Repr

/-- A member of `self.active_site`: the source stores a mixed list of
OtherAtom objects and WaterMolecule objects; both expose `.index` and
`.resid`, which is all the connection finders use. -/
inductive ASMember where
  | prot (a : OtherAtom)
  | wat (m : WaterMolecule)
deriving DecidableEq, Repr

def ASMember.resid : ASMember → ℕ
  | .prot a => a.resid
  | .wat m => m.resid

def ASMember.index : ASMember → ℕ
  | .prot a => a.index
  | .wat m => m.index

/-- The mutable state of a WaterNetwork object that the connection finders
read: the atom catalog plus the (optionally set) active site. -/
structure WaterNetwork where
  water_molecules : List WaterMolecule
  protein_atoms : List OtherAtom
  protein_subset : List OtherAtom
  active_site : Option (List ASMember)
deriving DecidableEq, Repr

def wmDefault : WaterMolecule :=
  { index := 0, O := ⟨0, "O", 0, ptDefault⟩, H1 := ⟨0, "H1", 0, ptDefault⟩,
    H2 := ⟨0, "H2", 0, ptDefault⟩, resid := 0 }

def oaDefault : OtherAtom :=
  { index := 0, name := "", resname := "", resid := 0, coords := ptDefault, hbonding := false }

/-- Total order on candidate indices used to model the sort of
`cKDTree.query` results: increasing distance to the query point, ties broken
by index (scipy returns neighbors sorted by distance; the tie order is
irrelevant to every theorem below). -/
def distOrder (pts : List Pt) (q : Pt) (i j : ℕ) : Prop :=
  sqDist (pts.getD i ptDefault) q < sqDist (pts.getD j ptDefault) q ∨
    (sqDist (pts.getD i ptDefault) q = sqDist (pts.getD j ptDefault) q ∧ i ≤ j)

instance (pts : List Pt) (q : Pt) : DecidableRel (distOrder pts q) := by
  intro i j; unfold distOrder; infer_instance

/-- Model of `tree.query(q, k=k, distance_upper_bound=cutoff)` for a cKDTree
built on `pts`: the indices of all points at distance <= cutoff from `q`,
sorted by increasing distance, truncated to the first `k`.  scipy pads the
remaining slots with index `n` and distance `inf`; the source always rejects
those by re-checking `dist <= cutoff`, so the padding is omitted here. -/
def kQuery (pts : List Pt) (q : Pt) (k : ℕ) (cutoff : ℚ) : List ℕ :=
  (List.insertionSort (distOrder pts q)
    ((List.range pts.length).filter
      (fun i => distLE (sqDist (pts.getD i ptDefault) q) cutoff))).take k

/-- A connection record.  The source returns tuples of length 5 (plus a
backbone/side-chain classification as a 6th entry for undirected WAT-PROT
connections); `classification` is `none` for the 5-tuples. -/
structure Conn where
  index1 : ℕ
  index2 : ℕ
  name1 : String
  btype : String
  site : String
  classification : Option String
deriving DecidableEq, Repr

/-- Active-site tag of a WAT-WAT connection in `find_connections`
(line 186-190): only the residue of the query water `waters[i]` is compared
against the resids of the active-site members. -/
def siteStatusWW (asite : Option (List ASMember)) (resid : ℕ) : String :=
  match asite with
  | none => "None"
  | some l => if l.any (fun f => f.resid == resid) then "active_site" else "not_active_site"

/-- Active-site tag of a WAT-PROT connection in `find_connections`
(line 206-210): both endpoint residues are compared. -/
def siteStatusWP (asite : Option (List ASMember)) (watResid protResid : ℕ) : String :=
  match asite with
  | none => "None"
  | some l =>
    if l.any (fun f => f.resid == watResid || f.resid == protResid) then "active_site"
    else "not_active_site"

/-- Active-site tag used by `find_directed_connections` (e.g. lines 328-337):
when `active_site_only` the tag is hard-coded to active_site; otherwise the
indices of the two endpoints are compared against the indices of the
active-site members. -/
def siteStatusIdx (active_site_only : Bool) (asite : Option (List ASMember))
    (i1 i2 : ℕ) : String :=
  if active_site_only then "active_site"
  else
    match asite with
    | none => "None"
    | some l =>
      if l.any (fun f => f.index == i1 || f.index == i2) then "active_site"
      else "not_active_site"

/-- The WAT-WAT connection record emitted for query water `i` and neighbor
water `nb` (source line 192). -/
def mkWWConn (asite : Option (List ASMember)) (waters : List WaterMolecule)
    (i nb : ℕ) : Conn :=
  { index1 := (waters.getD i wmDefault).O.index,
    index2 := (waters.getD nb wmDefault).O.index,
    name1 := "O", btype := "WAT-WAT",
    site := siteStatusWW asite (waters.getD i wmDefault).resid,
    classification := none }

/-- The WAT-PROT connection record emitted for query water `i` and protein
neighbor `nb` (source line 215). -/
def mkWPConn (asite : Option (List ASMember)) (waters : List WaterMolecule)
    (protein : List OtherAtom) (i nb : ℕ) : Conn :=
  { index1 := (protein.getD nb oaDefault).index,
    index2 := (waters.getD i wmDefault).O.index,
    name1 := (protein.getD nb oaDefault).name, btype := "WAT-PROT",
    site := siteStatusWP asite (waters.getD i wmDefault).resid
      (protein.getD nb oaDefault).resid,
    classification := some (if (protein.getD nb oaDefault).name == "O" ||
        (protein.getD nb oaDefault).name == "N" then "backbone" else "side-chain") }

/-- The WAT-WAT part of `find_connections` (source lines 179-192): a KD-tree
over the water-oxygen coordinates is queried with every oxygen (k=10); an
edge is emitted for each non-self neighbor within the cutoff whose oxygen
index is larger than the query oxygen's index. -/
def watWatConns (asite : Option (List ASMember)) (waters : List WaterMolecule)
    (cutoff : ℚ) : List Conn :=
  let wcoords := waters.map (fun m => m.O.coords)
  (List.range waters.length).flatMap (fun i =>
    (kQuery wcoords (wcoords.getD i ptDefault) 10 cutoff).filterMap (fun nb =>
      if nb ≠ i then
        if (waters.getD i wmDefault).O.index < (waters.getD nb wmDefault).O.index then
          some (mkWWConn asite waters i nb)
        else none
      else none))

/-- The WAT-PROT part of `find_connections` (source lines 195-215): a KD-tree
over the protein coordinates is queried with every water oxygen (k=10); every
protein neighbor within the cutoff yields an edge with a
backbone/side-chain classification. -/
def watProtConns (asite : Option (List ASMember)) (waters : List WaterMolecule)
    (protein : List OtherAtom) (cutoff : ℚ) : List Conn :=
  let wcoords := waters.map (fun m => m.O.coords)
  let pcoords := protein.map (fun a => a.coords)
  (List.range waters.length).flatMap (fun i =>
    (kQuery pcoords (wcoords.getD i ptDefault) 10 cutoff).map (fun nb =>
      mkWPConn asite waters protein i nb))

/-- `WaterNetwork.find_connections` (source lines 144-217).  With zero
scoped waters (or, unless `water_only`, zero scoped protein atoms) the source
builds `np.array([])`, a 1-D empty array, and `cKDTree` raises
`ValueError: data must be 2 dimensions`; this is modelled by `.error`. -/
def findConnections (net : WaterNetwork) (cutoff : ℚ)
    (water_active : List WaterMolecule) (protein_active : List OtherAtom)
    (active_site_only water_only : Bool) : Except String (List Conn) :=
  let waters := if active_site_only then water_active else net.water_molecules
  let protein := if active_site_only then protein_active else net.protein_atoms
  if waters.isEmpty then .error "ValueError: data must be 2 dimensions"
  else
    let ww := watWatConns net.active_site waters cutoff
    if water_only then .ok ww
    else if protein.isEmpty then .error "ValueError: data must be 2 dimensions"
    else .ok (ww ++ watProtConns net.active_site waters protein cutoff)

/-- The per-hydrogen rows gathered by `find_directed_connections`
(source lines 261-279): for each water, two entries carrying the OXYGEN
index, the hydrogen coordinates and the hydrogen name. -/
def waterHList (waters : List WaterMolecule) : List (ℕ × Pt × String) :=
  waters.flatMap (fun m =>
    [(m.O.index, m.H1.coords, "H1"), (m.O.index, m.H2.coords, "H2")])

/-- The per-oxygen rows gathered by `find_directed_connections`. -/
def waterOList (waters : List WaterMolecule) : List (ℕ × Pt × String) :=
  waters.map (fun m => (m.O.index, m.O.coords, "O"))

/-- Protein acceptor atoms (source lines 302-306): name contains P, O, N or S. -/
def protOList (protein : List OtherAtom) : List OtherAtom :=
  protein.filter (fun a =>
    a.name.contains 'P' || a.name.contains 'O' || a.name.contains 'N' || a.name.contains 'S')

/-- Protein donor hydrogens (source lines 308-311): name contains H and did
not match the acceptor branch (Python elif). -/
def protHList (protein : List OtherAtom) : List OtherAtom :=
  protein.filter (fun a =>
    !(a.name.contains 'P' || a.name.contains 'O' || a.name.contains 'N' ||
      a.name.contains 'S') && a.name.contains 'H')

/-- Matches of the first directed protein branch (source lines 319-327):
KD-tree over the protein hydrogens, queried with the water oxygens, k=10.
Each match is (row into waterOList, index into protHList). -/
def dirPHmatches (waters : List WaterMolecule) (pH : List OtherAtom)
    (cutoff : ℚ) : List (ℕ × ℕ) :=
  let wO := waterOList waters
  let pHcoords := pH.map (fun a => a.coords)
  (List.range wO.length).flatMap (fun inear =>
    (kQuery pHcoords ((wO.getD inear (0, ptDefault, "")).2.1) 10 cutoff).map
      (fun nb => (inear, nb)))

/-- Matches of the second directed protein branch (source lines 365-371):
KD-tree over the protein acceptors, queried with the water hydrogens, k=10. -/
def dirPOmatches (waters : List WaterMolecule) (pO : List OtherAtom)
    (cutoff : ℚ) : List (ℕ × ℕ) :=
  let wH := waterHList waters
  let pOcoords := pO.map (fun a => a.coords)
  (List.range wH.length).flatMap (fun inear =>
    (kQuery pOcoords ((wH.getD inear (0, ptDefault, "")).2.1) 10 cutoff).map
      (fun nb => (inear, nb)))

/-- Connection emitted by the first protein branch when `angle_criteria` is
None (source line 341).  Note that the active-site test indexes
`water_H_indices` with a row number of the OXYGEN list (source line 332),
exactly as the source does. -/
def dirPHconn (active_site_only : Bool) (asite : Option (List ASMember))
    (waters : List WaterMolecule) (pH : List OtherAtom) (t : ℕ × ℕ) : Conn :=
  let wO := waterOList waters
  let wH := waterHList waters
  { index1 := (pH.getD t.2 oaDefault).index,
    index2 := (wO.getD t.1 (0, ptDefault, "")).1,
    name1 := (pH.getD t.2 oaDefault).name, btype := "WAT-PROT",
    site := siteStatusIdx active_site_only asite ((wH.getD t.1 (0, ptDefault, "")).1)
      ((pH.getD t.2 oaDefault).index),
    classification := none }

/-- Connection emitted by the second protein branch when `angle_criteria` is
None (source line 385). -/
def dirPOconn (active_site_only : Bool) (asite : Option (List ASMember))
    (waters : List WaterMolecule) (pO : List OtherAtom) (t : ℕ × ℕ) : Conn :=
  let wH := waterHList waters
  { index1 := (wH.getD t.1 (0, ptDefault, "")).1,
    index2 := (pO.getD t.2 oaDefault).index,
    name1 := (wH.getD t.1 (0, ptDefault, "")).2.2, btype := "WAT-PROT",
    site := siteStatusIdx active_site_only asite ((wH.getD t.1 (0, ptDefault, "")).1)
      ((pO.getD t.2 oaDefault).index),
    classification := none }

/-- Candidates of the directed water-water branch (source lines 405-425):
KD-tree over the water oxygens queried with the water hydrogens (k=5),
keeping only matches whose hydrogen owner and acceptor oxygen have different
indices (the intra-molecular check of line 425). -/
def dirWWcand (waters : List WaterMolecule) (cutoff : ℚ) : List (ℕ × ℕ) :=
  let wH := waterHList waters
  let wO := waterOList waters
  let wOcoords := wO.map (fun e => e.2.1)
  (List.range wH.length).flatMap (fun inear =>
    (kQuery wOcoords ((wH.getD inear (0, ptDefault, "")).2.1) 5 cutoff).filterMap
      (fun nb =>
        if (wH.getD inear (0, ptDefault, "")).1 ≠ (wO.getD nb (0, ptDefault, "")).1 then
          some (inear, nb)
        else none))

/-- The two vectors formed by the water-water angle computation
(source lines 434-439): `water1 = H - O_acceptor` and
`water2 = H - O_donor`, where the donor oxygen is the first member of
`self.water_molecules` whose oxygen index equals the hydrogen row's index. -/
def dirWWvecs (allWaters waters : List WaterMolecule) (t : ℕ × ℕ) : Pt × Pt :=
  let wH := waterHList waters
  let wO := waterOList waters
  let hIdx := (wH.getD t.1 (0, ptDefault, "")).1
  let hC := (wH.getD t.1 (0, ptDefault, "")).2.1
  let oC := (wO.getD t.2 (0, ptDefault, "")).2.1
  let o2C := ((allWaters.find? (fun w => w.O.index == hIdx)).getD wmDefault).O.coords
  (ptSub hC oC, ptSub hC o2C)

/-- Connection emitted by the directed water-water branch
(source lines 431 and 445). -/
def dirWWconn (active_site_only : Bool) (asite : Option (List ASMember))
    (waters : List WaterMolecule) (t : ℕ × ℕ) : Conn :=
  let wH := waterHList waters
  let wO := waterOList waters
  { index1 := (wH.getD t.1 (0, ptDefault, "")).1,
    index2 := (wO.getD t.2 (0, ptDefault, "")).1,
    name1 := (wH.getD t.1 (0, ptDefault, "")).2.2, btype := "WAT-WAT",
    site := siteStatusIdx active_site_only asite ((wH.getD t.1 (0, ptDefault, "")).1)
      ((wO.getD t.2 (0, ptDefault, "")).1),
    classification := none }

/-- The connections emitted by the two directed protein branches when
`angle_criteria` is None (source lines 341 and 385, in source order). -/
def dirProtOut (active_site_only : Bool) (asite : Option (List ASMember))
    (waters : List WaterMolecule) (protein : List OtherAtom) (cutoff : ℚ) : List Conn :=
  (dirPHmatches waters (protHList protein) cutoff).map
    (dirPHconn active_site_only asite waters (protHList protein)) ++
  (dirPOmatches waters (protOList protein) cutoff).map
    (dirPOconn active_site_only asite waters (protOList protein))

/-- The directed water-water connections with `angle_criteria=None`
(source lines 428-431): only candidates whose donor oxygen index is smaller
than the acceptor oxygen index are kept. -/
def dirWWnoneOut (active_site_only : Bool) (asite : Option (List ASMember))
    (waters : List WaterMolecule) (cutoff : ℚ) : List Conn :=
  (dirWWcand waters cutoff).filterMap (fun t =>
    if (waterHList waters |>.getD t.1 (0, ptDefault, "")).1 <
        (waterOList waters |>.getD t.2 (0, ptDefault, "")).1 then
      some (dirWWconn active_site_only asite waters t)
    else none)

/-- The directed water-water connections with an angle criterion
(source lines 433-445): the angle test on the code's two vectors AND the
same index-ordering condition. -/
def dirWWsomeOut (allWaters : List WaterMolecule) (active_site_only : Bool)
    (asite : Option (List ASMember)) (waters : List WaterMolecule) (cutoff : ℚ)
    (ap : Pt → Pt → Bool) : List Conn :=
  (dirWWcand waters cutoff).filterMap (fun t =>
    if ap (dirWWvecs allWaters waters t).1 (dirWWvecs allWaters waters t).2 &&
        decide ((waterHList waters |>.getD t.1 (0, ptDefault, "")).1 <
          (waterOList waters |>.getD t.2 (0, ptDefault, "")).1) then
      some (dirWWconn active_site_only asite waters t)
    else none)

/-- The protein half of `find_directed_connections` (source lines 291-398):
nothing when water_only; with `angle_criteria=None` the two branch outputs;
with an angle criterion, a NameError as soon as the first branch has a match
within the cutoff, a ValueError as soon as the second has, else nothing. -/
def dirProtPart (active_site_only : Bool) (asite : Option (List ASMember))
    (waters : List WaterMolecule) (protein : List OtherAtom) (cutoff : ℚ)
    (water_only : Bool) (angle_criteria : Option (Pt → Pt → Bool)) :
    Except String (List Conn) :=
  if water_only then .ok []
  else
    match angle_criteria with
    | none => .ok (dirProtOut active_site_only asite waters protein cutoff)
    | some _ =>
      if (dirPHmatches waters (protHList protein) cutoff).isEmpty then
        if (dirPOmatches waters (protOList protein) cutoff).isEmpty then .ok []
        else .error "ValueError: shapes not aligned"
      else .error "NameError: name water1 is not defined"

/-- `WaterNetwork.find_directed_connections` (source lines 220-447).

The angle test `degrees(arccos(cos)) >= angle_criteria` is a floating-point
computation; it is abstracted as a boolean predicate on the two vectors the
source forms (`water1`, `water2` of lines 438-439), passed as
`angle_criteria : Option (Pt -> Pt -> Bool)` (None models
`angle_criteria=None`).

Faithful failure modes when `angle_criteria` is not None:
 - first protein branch, any match within the cutoff: the source evaluates
   `np.linalg.norm(water1)` with `water1` undefined (line 356) -> NameError;
 - second protein branch, any match: `water_o_coords` is a LIST (line 389,
   no `[0]`), so `np.dot` receives 2-D arrays -> ValueError;
 - water-water branch: the donor lookup `[...][0]` (line 437) raises
   IndexError when no molecule of `self.water_molecules` owns the index. -/
def findDirectedConnections (net : WaterNetwork) (cutoff : ℚ)
    (water_active : List WaterMolecule) (protein_active : List OtherAtom)
    (active_site_only water_only : Bool)
    (angle_criteria : Option (Pt → Pt → Bool)) : Except String (List Conn) :=
  let waters := if active_site_only then water_active else net.water_molecules
  let protein := if active_site_only then protein_active else net.protein_atoms
  let asite := net.active_site
  match dirProtPart active_site_only asite waters protein cutoff
      water_only angle_criteria with
  | .error e => .error e
  | .ok pcs =>
    match angle_criteria with
    | none => .ok (pcs ++ dirWWnoneOut active_site_only asite waters cutoff)
    | some ap =>
      if (dirWWcand waters cutoff).any (fun t =>
          (net.water_molecules.find? (fun w =>
            w.O.index == (waterHList waters |>.getD t.1 (0, ptDefault, "")).1)).isNone) then
        .error "IndexError: list index out of range"
      else
        .ok (pcs ++ dirWWsomeOut net.water_molecules active_site_only asite waters cutoff ap)

/-- A reference atom handed to `select_active_site` (an MDAnalysis atom:
only its position and resid are read). -/
structure RefAtom where
  position : Pt
  resid : ℕ
deriving DecidableEq, Repr

/-- One axis of the minimum-image convention: the wrapped squared
displacement for box length L. -/
def wrapSq (L d : ℚ) : ℚ := (d - L * ((round (d / L) : ℤ) : ℚ)) ^ 2

/-- Squared distance as computed by `MDAnalysis distance_array`: plain
Euclidean without a box, minimum-image (orthorhombic box modelled) with one. -/
def miSqDist (box : Option Pt) (p q : Pt) : ℚ :=
  match box with
  | none => sqDist p q
  | some b =>
    wrapSq b.1 (p.1 - q.1) + wrapSq b.2.1 (p.2.1 - q.2.1) + wrapSq b.2.2 (p.2.2 - q.2.2)

/-- Distance test of the protein loop of `select_active_site`
(source line 123-124): minimum over the reference atoms of the PBC-aware
distance, compared to the radius. -/
def protNearRef (box : Option Pt) (refPos : List Pt) (radius : ℚ) (a : OtherAtom) : Bool :=
  refPos.any (fun rp => distLE (miSqDist box a.coords rp) radius)

/-- Distance test of the water loop of `select_active_site`
(source lines 133-136): minimum over the three water atoms and all reference
atoms of the PLAIN distance (the source passes no box here). -/
def watNearRef (refPos : List Pt) (radius : ℚ) (m : WaterMolecule) : Bool :=
  refPos.any (fun rp =>
    distLE (sqDist m.O.coords rp) radius || distLE (sqDist m.H1.coords rp) radius ||
      distLE (sqDist m.H2.coords rp) radius)

/-- `WaterNetwork.select_active_site` (source lines 91-142).  A protein atom
whose resid occurs among the reference resids is included unconditionally
(and NOT added to `protein_active`); any other atom is included iff within
the radius; a water is included iff any of its three atoms is within the
radius of any reference atom.  With an empty reference and at least one
atom/water, `np.min` of an empty distance array raises ValueError. -/
def selectActiveSite (net : WaterNetwork) (reference : List RefAtom)
    (box : Option Pt) (radius : ℚ) :
    Except String (List ASMember × List OtherAtom × List WaterMolecule) :=
  if reference.isEmpty &&
      (!net.protein_atoms.isEmpty || !net.water_molecules.isEmpty) then
    .error "ValueError: zero-size array to reduction operation minimum"
  else
    let refResids := reference.map (fun r => r.resid)
    let refPos := reference.map (fun r => r.position)
    let protIncluded := net.protein_atoms.filter (fun a =>
      refResids.contains a.resid || protNearRef box refPos radius a)
    let protein_active := net.protein_atoms.filter (fun a =>
      !(refResids.contains a.resid) && protNearRef box refPos radius a)
    let water_active := net.water_molecules.filter (watNearRef refPos radius)
    .ok (protIncluded.map ASMember.prot ++ water_active.map ASMember.wat,
      protein_active, water_active)

/-- Node attributes set by `G.add_node` in the network builders. -/
structure NodeAttrs where
  pos : Pt
  category : String
  msa : Option String
deriving DecidableEq, Repr

/-- Edge attributes set by `G.add_edge`. -/
structure EdgeAttrs where
  ctype : String
  asite : String
deriving DecidableEq, Repr

/-- A networkx Graph/DiGraph: nodes keyed by atom index carrying an
attribute dict (None models the empty dict of a node created implicitly by
`add_edge`), edges carrying their attribute dict. -/
structure Graph where
  directed : Bool
  nodes : List (ℕ × Option NodeAttrs)
  edges : List (ℕ × ℕ × EdgeAttrs)
deriving DecidableEq, Repr

/-- `G.add_node`: insert, or overwrite the attributes of an existing node. -/
def addNode (g : Graph) (id : ℕ) (attrs : NodeAttrs) : Graph :=
  if g.nodes.any (fun p => p.1 == id) then
    { g with nodes := g.nodes.map (fun p => if p.1 == id then (id, some attrs) else p) }
  else { g with nodes := g.nodes ++ [(id, some attrs)] }

/-- `add_edge` creates missing endpoint nodes with an empty attribute dict. -/
def ensureNode (g : Graph) (id : ℕ) : Graph :=
  if g.nodes.any (fun p => p.1 == id) then g
  else { g with nodes := g.nodes ++ [(id, none)] }

/-- Whether an existing stored edge collides with (u,v): exact match for a
DiGraph, either orientation for a Graph. -/
def edgeMatches (directed : Bool) (u v : ℕ) (t : ℕ × ℕ × EdgeAttrs) : Bool :=
  if directed then t.1 == u && t.2.1 == v
  else (t.1 == u && t.2.1 == v) || (t.1 == v && t.2.1 == u)

/-- `G.add_edge`: ensure both endpoints exist, then insert the edge or
overwrite the attributes of the existing (parallel) edge. -/
def addEdge (g : Graph) (u v : ℕ) (e : EdgeAttrs) : Graph :=
  let g1 := ensureNode (ensureNode g u) v
  if g1.edges.any (edgeMatches g1.directed u v) then
    { g1 with edges := g1.edges.map (fun t =>
        if edgeMatches g1.directed u v t then (t.1, t.2.1, e) else t) }
  else { g1 with edges := g1.edges ++ [(u, v, e)] }

def emptyGraph (directed : Bool) : Graph := { directed := directed, nodes := [], edges := [] }

/-- Python list indexing `l[i]` (negative indices wrap once; out of range
raises IndexError). -/
def pyIdx (l : List String) (i : ℤ) : Except String String :=
  let j : ℤ := if i < 0 then (l.length : ℤ) + i else i
  if 0 ≤ j ∧ j < (l.length : ℤ) then .ok (l.getD j.toNat "")
  else .error "IndexError: list index out of range"

/-- The MSA list used by the builders: the supplied one, or the dummy
`['X'] * 10000` (source lines 472-475). -/
def msaListOf (msa : Option (List String)) : List String :=
  match msa with
  | some l => l
  | none => List.replicate 10000 "X"

/-- Water node insertion loop shared by both builders. -/
def addWatNodes (g : Graph) (ws : List WaterMolecule) : Graph :=
  ws.foldl (fun g m => addNode g m.O.index ⟨m.O.coords, "WAT", none⟩) g

/-- Protein node insertion loop of the active-site-only branches
(source lines 484-486 and 544-546): the MSA index lookup
`MSA_indices[molecule.resid-1]` is UNGUARDED and raises IndexError when out
of range. -/
def addProtNodesAS (msaList : List String) : Graph → List OtherAtom →
    Except String Graph
  | g, [] => .ok g
  | g, p :: tl =>
    match pyIdx msaList ((p.resid : ℤ) - 1) with
    | .error e => .error e
    | .ok mi => addProtNodesAS msaList
        (addNode g p.index ⟨p.coords, "PROTEIN", some mi⟩) tl

/-- Protein node insertion loop of the all-atoms branch of
`generate_oxygen_network` (source lines 498-500): iterates over
`self.protein_subset` (never populated in this module), evaluates the same
unguarded MSA lookup, but stores `MSA=None` on the node. -/
def addProtNodesAll (msaList : List String) : Graph → List OtherAtom →
    Except String Graph
  | g, [] => .ok g
  | g, p :: tl =>
    match pyIdx msaList ((p.resid : ℤ) - 1) with
    | .error e => .error e
    | .ok _mi => addProtNodesAll msaList
        (addNode g p.index ⟨p.coords, "PROTEIN", none⟩) tl

/-- `WaterNetwork.generate_oxygen_network` (source lines 450-510). -/
def generateOxygenNetwork (net : WaterNetwork) (box : Option Pt)
    (msa : Option (List String)) (reference : Option (List RefAtom)) (radius : ℚ)
    (active_site_only water_only : Bool) (cutoff : ℚ) : Except String Graph :=
  let selRes : Except String
      (Option (List ASMember × List OtherAtom × List WaterMolecule)) :=
    match reference with
    | some ref =>
      match selectActiveSite net ref box radius with
      | .error e => .error e
      | .ok r => .ok (some r)
    | none => .ok none
  match selRes with
  | .error e => .error e
  | .ok sel =>
    let net1 := match sel with
      | some (asl, _, _) => { net with active_site := some asl }
      | none => net
    let msaList := msaListOf msa
    if active_site_only then
      match sel with
      | none => .error "NameError: name water_active is not defined"
      | some (_, pa, wa) =>
        let g1 := addWatNodes (emptyGraph false) wa
        match (if water_only then .ok g1 else addProtNodesAS msaList g1 pa :
            Except String Graph) with
        | .error e => .error e
        | .ok g2 =>
          match findConnections net1 cutoff wa pa true water_only with
          | .error e => .error e
          | .ok cs =>
            .ok ((cs.filter (fun c => c.site == "active_site")).foldl
              (fun g c => addEdge g c.index1 c.index2 ⟨c.btype, c.site⟩) g2)
    else
      let g1 := addWatNodes (emptyGraph false) net.water_molecules
      match (if water_only then .ok g1 else addProtNodesAll msaList g1 net.protein_subset :
          Except String Graph) with
      | .error e => .error e
      | .ok g2 =>
        match findConnections net1 cutoff [] [] false water_only with
        | .error e => .error e
        | .ok cs =>
          .ok (cs.foldl (fun g c => addEdge g c.index1 c.index2 ⟨c.btype, c.site⟩) g2)

/-- `WaterNetwork.generate_directed_network` (source lines 512-569).  In the
all-atoms branch the protein node loop reads the never-assigned local
`MSA_index` (source line 561), a NameError as soon as `protein_subset` is
nonempty; and the `find_directed_connections` call of line 564 OMITS
`angle_criteria`, so the all-atoms branch always uses `angle_criteria=None`. -/
def generateDirectedNetwork (net : WaterNetwork) (box : Option Pt)
    (msa : Option (List String)) (reference : Option (List RefAtom)) (radius : ℚ)
    (active_site_only water_only : Bool) (angle_criteria : Option (Pt → Pt → Bool))
    (cutoff : ℚ) : Except String Graph :=
  let selRes : Except String
      (Option (List ASMember × List OtherAtom × List WaterMolecule)) :=
    match reference with
    | some ref =>
      match selectActiveSite net ref box radius with
      | .error e => .error e
      | .ok r => .ok (some r)
    | none => .ok none
  match selRes with
  | .error e => .error e
  | .ok sel =>
    let net1 := match sel with
      | some (asl, _, _) => { net with active_site := some asl }
      | none => net
    let msaList := msaListOf msa
    if active_site_only then
      match sel with
      | none => .error "NameError: name water_active is not defined"
      | some (_, pa, wa) =>
        let g1 := addWatNodes (emptyGraph true) wa
        match (if water_only then .ok g1 else addProtNodesAS msaList g1 pa :
            Except String Graph) with
        | .error e => .error e
        | .ok g2 =>
          match findDirectedConnections net1 cutoff wa pa true water_only
              angle_criteria with
          | .error e => .error e
          | .ok cs =>
            .ok ((cs.filter (fun c => c.site == "active_site")).foldl
              (fun g c => addEdge g c.index1 c.index2 ⟨c.btype, c.site⟩) g2)
    else
      let g1 := addWatNodes (emptyGraph true) net.water_molecules
      match (if water_only then .ok g1
          else match net.protein_subset with
            | [] => .ok g1
            | _ => .error "NameError: name MSA_index is not defined" :
          Except String Graph) with
      | .error e => .error e
      | .ok g2 =>
        match findDirectedConnections net1 cutoff [] [] false water_only none with
        | .error e => .error e
        | .ok cs =>
          .ok (cs.foldl (fun g c => addEdge g c.index1 c.index2 ⟨c.btype, c.site⟩) g2)

/-- `WaterNetwork.get_density` (source lines 571-593).  For any selection
other than all the source iterates `S.edges` with the local `S` not yet
assigned (line 586), an UnboundLocalError; with fewer than 2 nodes the
division is by zero. -/
def getDensity (g : Graph) (selection : String) : Except String ℚ :=
  if selection == "all" then
    let nedges := g.edges.length
    let nnodes := g.nodes.length
    let denom : ℚ := ((nnodes : ℚ) * ((nnodes : ℚ) - 1)) / 2
    if denom == 0 then .error "ZeroDivisionError: float division by zero"
    else .ok ((nedges : ℚ) / denom)
  else .error "UnboundLocalError: local variable S referenced before assignment"

/-- Neighbors of a node: successors for a DiGraph, both directions for a
Graph. -/
def adjacency (g : Graph) (u : ℕ) : List ℕ :=
  g.edges.filterMap (fun t => if t.1 == u then some t.2.1 else none) ++
    (if g.directed then []
     else g.edges.filterMap (fun t => if t.2.1 == u then some t.1 else none))

/-- One breadth step: a node set together with all its neighbors. -/
def ballStep (g : Graph) (s : List ℕ) : List ℕ :=
  (s ++ s.flatMap (adjacency g)).dedup

/-- All nodes reachable from u in at most n steps. -/
def ball (g : Graph) (u : ℕ) : ℕ → List ℕ
  | 0 => [u]
  | n + 1 => ballStep g (ball g u n)

/-- Shortest-path hop count (None when unreachable); paths in a graph with
n nodes have length at most n-1. -/
def hopDist (g : Graph) (u v : ℕ) : Option ℕ :=
  (List.range g.nodes.length).find? (fun k => (ball g u k).contains v)

/-- The connectivity test of `nx.average_shortest_path_length`: strong
connectivity for a DiGraph, connectivity for a Graph. -/
def asplConnected (g : Graph) : Bool :=
  g.nodes.all (fun p => g.nodes.all (fun q =>
    (ball g p.1 (g.nodes.length - 1)).contains q.1))

inductive NXErr where
  | pointless
  | notConnected
deriving DecidableEq, Repr

/-- `nx.average_shortest_path_length`: NetworkXPointlessConcept on the null
graph, 0 on a single node, NetworkXError when not (strongly) connected, else
the mean hop count over ordered node pairs. -/
def aspl (g : Graph) : Except NXErr ℚ :=
  let n := g.nodes.length
  if n = 0 then .error .pointless
  else if n = 1 then .ok 0
  else if !asplConnected g then .error .notConnected
  else
    .ok (((g.nodes.flatMap (fun p => g.nodes.map (fun q =>
      (((hopDist g p.1 q.1).getD 0 : ℕ) : ℚ)))).sum) / ((n : ℚ) * ((n : ℚ) - 1)))

/-- `nx.connected_components` on an (undirected) graph, in discovery order
over the node list; each component lists its members in node order. -/
def componentsOf (g : Graph) : List (List ℕ) :=
  (g.nodes.map Prod.fst).foldl (fun acc u =>
    if acc.any (fun c => c.contains u) then acc
    else acc ++ [(g.nodes.map Prod.fst).filter (fun v =>
      (ball g u (g.nodes.length - 1)).contains v)]) []

/-- `S.to_undirected()`: only the adjacency interpretation changes for the
metrics modelled here (reciprocal directed edges collapse to one undirected
edge in networkx; no metric below reads the edge multiplicity after the
conversion). -/
def toUndirected (g : Graph) : Graph := { g with directed := false }

/-- `S.subgraph(c)`: the induced subgraph on the node list c. -/
def subgraphOf (g : Graph) (c : List ℕ) : Graph :=
  { directed := g.directed,
    nodes := g.nodes.filter (fun p => c.contains p.1),
    edges := g.edges.filter (fun t => c.contains t.1 && c.contains t.2.1) }

/-- `self.graph.edge_subgraph([... if data['active_site']==selection])`:
the edges whose tag matches, together with their incident nodes. -/
def edgeSubgraph (g : Graph) (sel : String) : Graph :=
  let es := g.edges.filter (fun t => t.2.2.asite == sel)
  { directed := g.directed,
    nodes := g.nodes.filter (fun p => es.any (fun t => t.1 == p.1 || t.2.1 == p.1)),
    edges := es }

/-- Python `max(iterable, key=len)`: the first element of maximal length. -/
def maxByLen : List (List ℕ) → List ℕ
  | [] => []
  | c :: rest => rest.foldl (fun best x => if x.length > best.length then x else best) c

/-- `nx.average_shortest_path_length` applied to a SET of nodes, as the
source does on line 679: `len` succeeds, so the null and single-node special
cases still trigger, but any larger set hits `G.is_directed()` and raises
AttributeError. -/
def asplOnNodeSet (s : List ℕ) : Except String ℚ :=
  if s.length = 0 then
    .error "NetworkXPointlessConcept: Connectivity is undefined for the null graph"
  else if s.length = 1 then .ok 0
  else .error "AttributeError: set object has no attribute is_directed"

/-- `WaterNetwork.get_CPL` (source lines 636-681).  Only NetworkXError (the
not-connected failure) is caught; in the disconnected fallback the
calculate_path=longest branch passes the node set itself (not a subgraph) to
`nx.average_shortest_path_length`. -/
def getCPL (g : Graph) (selection calculate_path : String)
    (exclude_single_points : Bool) : Except String ℚ :=
  let S := if selection == "all" then g else edgeSubgraph g selection
  match aspl S with
  | .ok v => .ok v
  | .error .pointless =>
    .error "NetworkXPointlessConcept: Connectivity is undefined for the null graph"
  | .error .notConnected =>
    let S2 := if S.directed then toUndirected S else S
    let cc := if exclude_single_points then
        (componentsOf S2).filter (fun c => c.length > 1)
      else componentsOf S2
    if calculate_path == "all" then
      match cc.mapM (fun c => aspl (subgraphOf S2 c)) with
      | .error .pointless =>
        .error "NetworkXPointlessConcept: Connectivity is undefined for the null graph"
      | .error .notConnected => .error "NetworkXError: Graph is not connected"
      | .ok CPLs =>
        if CPLs.length = 0 then .error "RuntimeWarning: mean of empty slice (nan)"
        else .ok (CPLs.sum / (CPLs.length : ℚ))
    else asplOnNodeSet (maxByLen (componentsOf S2))

/- Concrete inputs used by the counterexamples, code-defect evaluations and
witnesses below. -/

/-- A water whose oxygen has index 1, sitting at the origin. -/
def w1C1 : WaterMolecule :=
  { index := 11, O := ⟨1, "O", 11, (0, 0, 0)⟩, H1 := ⟨3, "H1", 11, (1, 0, 0)⟩,
    H2 := ⟨4, "H2", 11, (0, 1, 0)⟩, resid := 11 }

/-- A water whose oxygen has index 2; its H1 at (-1,0,0) is at distance 1
from the oxygen of `w1C1` and farther than 2 from everything else. -/
def w2C1 : WaterMolecule :=
  { index := 12, O := ⟨2, "O", 12, (-2, 0, 0)⟩, H1 := ⟨5, "H1", 12, (-1, 0, 0)⟩,
    H2 := ⟨6, "H2", 12, (-3, 0, 0)⟩, resid := 12 }

def netC1 : WaterNetwork := ⟨[w1C1, w2C1], [], [], none⟩

/-- A network holding the single water `w1C1`. -/
def netOneWater : WaterNetwork := ⟨[w1C1], [], [], none⟩

def w1C4 : WaterMolecule :=
  { index := 101, O := ⟨1, "O", 101, (0, 0, 0)⟩, H1 := ⟨31, "H1", 101, (0, 0, 9)⟩,
    H2 := ⟨32, "H2", 101, (0, 0, -9)⟩, resid := 101 }

def w2C4 : WaterMolecule :=
  { index := 102, O := ⟨2, "O", 102, (2, 0, 0)⟩, H1 := ⟨33, "H1", 102, (2, 0, 9)⟩,
    H2 := ⟨34, "H2", 102, (2, 0, -9)⟩, resid := 102 }

/-- Two waters 2.0 apart (within the 3.3 cutoff); the active site holds
only the SECOND (higher-index) water. -/
def netC4 : WaterNetwork := ⟨[w1C4, w2C4], [], [], some [ASMember.wat w2C4]⟩

/-- A graph with 3 nodes and 2 edges (density 2/3). -/
def gC6 : Graph :=
  ⟨false, [(1, none), (2, none), (3, none)],
    [(1, 2, ⟨"WAT-WAT", "None"⟩), (2, 3, ⟨"WAT-WAT", "None"⟩)]⟩

/-- A disconnected graph: one component {1,2} and the isolated node 3. -/
def gC7 : Graph :=
  ⟨false, [(1, none), (2, none), (3, none)], [(1, 2, ⟨"WAT-WAT", "None"⟩)]⟩

/-- A network with zero waters and one protein atom. -/
def netC8 : WaterNetwork := ⟨[], [⟨7, "N", "ALA", 5, (1, 0, 0), true⟩], [], none⟩

def pC10 : OtherAtom := ⟨7, "N", "ALA", 5, (1, 0, 0), true⟩

def netC10 : WaterNetwork := ⟨[], [pC10], [], none⟩

/-- One reference atom at the origin whose resid (99) matches no protein atom. -/
def refC10 : List RefAtom := [⟨(0, 0, 0), 99⟩]

def wC9 : WaterMolecule :=
  { index := 10, O := ⟨1, "O", 10, (0, 0, 0)⟩, H1 := ⟨21, "H1", 10, (1, 0, 0)⟩,
    H2 := ⟨22, "H2", 10, (0, 1, 0)⟩, resid := 10 }

/-- A protein atom far (50 units) from the single water. -/
def pC9 : OtherAtom := ⟨7, "N", "ALA", 5, (50, 0, 0), true⟩

def netC9 : WaterNetwork := ⟨[wC9], [pC9], [], none⟩

/-- The graph `generate_oxygen_network` produces for `netC9` in all-atoms
mode: a single WAT node, nothing for the protein atom. -/
def gC9res : Graph := ⟨false, [(1, some ⟨(0, 0, 0), "WAT", none⟩)], []⟩

/-- Witness inputs for C9: one water and one protein atom, both within the
active-site radius of the single reference atom. -/
def wC9w : WaterMolecule :=
  { index := 10, O := ⟨1, "O", 10, (0, 0, 0)⟩, H1 := ⟨21, "H1", 10, (1 / 2, 0, 0)⟩,
    H2 := ⟨22, "H2", 10, (0, 1 / 2, 0)⟩, resid := 10 }

def pC9w : OtherAtom := ⟨7, "N", "ALA", 5, (1, 0, 0), true⟩

def netC9w : WaterNetwork := ⟨[wC9w], [pC9w], [], none⟩

def refC9w : List RefAtom := [⟨(0, 0, 0), 99⟩]

/-- The single connection `find_connections` emits on `netC4`. -/
def connC4 : Conn :=
  { index1 := 1, index2 := 2, name1 := "O", btype := "WAT-WAT",
    site := "not_active_site", classification := none }

/-- The single connection `find_connections` emits on `netC1`. -/
def connC2w : Conn :=
  { index1 := 1, index2 := 2, name1 := "O", btype := "WAT-WAT",
    site := "None", classification := none }

/-- A water (oxygen index 1) donating its H1 to the water `wB3`. -/
def wA3 : WaterMolecule :=
  { index := 21, O := ⟨1, "O", 21, (0, 0, 0)⟩, H1 := ⟨23, "H1", 21, (1, 0, 0)⟩,
    H2 := ⟨24, "H2", 21, (0, 1, 0)⟩, resid := 21 }

/-- A water (oxygen index 2) accepting the bond from `wA3`. -/
def wB3 : WaterMolecule :=
  { index := 22, O := ⟨2, "O", 22, (2, 0, 0)⟩, H1 := ⟨25, "H1", 22, (3, 0, 0)⟩,
    H2 := ⟨26, "H2", 22, (2, 1, 0)⟩, resid := 22 }

def netC3w : WaterNetwork := ⟨[wA3, wB3], [], [], none⟩

/-- The single directed connection found on `netC3w`. -/
def connC3w : Conn :=
  { index1 := 1, index2 := 2, name1 := "H1", btype := "WAT-WAT",
    site := "None", classification := none }

/- Theorems. -/

theorem mem_kQuery {pts : List Pt} {q : Pt} {k : ℕ} {cutoff : ℚ} {i : ℕ}
    (h : i ∈ kQuery pts q k cutoff) :
    i < pts.length ∧ distLE (sqDist (pts.getD i ptDefault) q) cutoff = true := by
  unfold kQuery at h
  have h2 := List.mem_of_mem_take h
  rw [List.mem_insertionSort] at h2
  rw [List.mem_filter] at h2
  exact ⟨List.mem_range.mp h2.1, h2.2⟩

theorem mem_kQuery_of_le {pts : List Pt} {q : Pt} {k : ℕ} {cutoff : ℚ} {i : ℕ}
    (hk : pts.length ≤ k) (hi : i < pts.length)
    (hd : distLE (sqDist (pts.getD i ptDefault) q) cutoff = true) :
    i ∈ kQuery pts q k cutoff := by
  unfold kQuery
  have hmem : i ∈ (List.range pts.length).filter
      (fun i => distLE (sqDist (pts.getD i ptDefault) q) cutoff) := by
    rw [List.mem_filter]
    exact ⟨List.mem_range.mpr hi, hd⟩
  have hlen : ((List.range pts.length).filter
      (fun i => distLE (sqDist (pts.getD i ptDefault) q) cutoff)).length ≤ k :=
    le_trans (le_trans (List.length_filter_le _ _) (by simp)) hk
  have hslen : (List.insertionSort (distOrder pts q)
      ((List.range pts.length).filter
        (fun i => distLE (sqDist (pts.getD i ptDefault) q) cutoff))).length ≤ k := by
    rw [(List.perm_insertionSort (distOrder pts q) _).length_eq]
    exact hlen
  rw [List.take_of_length_le hslen, List.mem_insertionSort]
  exact hmem

theorem kQuery_nodup (pts : List Pt) (q : Pt) (k : ℕ) (cutoff : ℚ) :
    (kQuery pts q k cutoff).Nodup := by
  unfold kQuery
  apply (List.take_sublist _ _).nodup
  apply ((List.perm_insertionSort (distOrder pts q) _).nodup_iff).mpr
  exact (List.nodup_range _).filter _

/-- A neighbor index that wins the ordering comparison is in bounds (an
out-of-range `getD` falls back to `wmDefault`, whose oxygen index 0 cannot
exceed anything). -/
theorem getD_oidx_lt_length {waters : List WaterMolecule} {i nb : ℕ}
    (h : (waters.getD i wmDefault).O.index < (waters.getD nb wmDefault).O.index) :
    nb < waters.length := by
  by_contra hge
  push_neg at hge
  rw [List.getD_eq_getElem?_getD waters nb, List.getElem?_eq_none hge,
    Option.getD_none] at h
  exact absurd h (by simp [wmDefault])

/-- Elimination for the WAT-WAT per-neighbor option of `watWatConns`. -/
theorem mkWW_some_elim {asite : Option (List ASMember)} {waters : List WaterMolecule}
    {i nb : ℕ} {c : Conn}
    (h : (if nb ≠ i then
        if (waters.getD i wmDefault).O.index < (waters.getD nb wmDefault).O.index then
          some (mkWWConn asite waters i nb) else none else none) = some c) :
    nb ≠ i ∧ (waters.getD i wmDefault).O.index < (waters.getD nb wmDefault).O.index ∧
      c = mkWWConn asite waters i nb := by
  by_cases h1 : nb ≠ i
  · by_cases h2 : (waters.getD i wmDefault).O.index < (waters.getD nb wmDefault).O.index
    · rw [if_pos h1, if_pos h2] at h
      exact ⟨h1, h2, (Option.some.inj h).symm⟩
    · rw [if_pos h1, if_neg h2] at h
      exact absurd h (by simp)
  · rw [if_neg h1] at h
    exact absurd h (by simp)

/-- With pairwise distinct oxygen indices, positions are recoverable from
indices. -/
theorem oidx_inj {waters : List WaterMolecule}
    (hnodup : (waters.map (fun m => m.O.index)).Nodup) {i j : ℕ}
    (hi : i < waters.length) (hj : j < waters.length)
    (h : (waters.getD i wmDefault).O.index = (waters.getD j wmDefault).O.index) :
    i = j := by
  have hi2 : i < (waters.map (fun m => m.O.index)).length := by simpa using hi
  have hj2 : j < (waters.map (fun m => m.O.index)).length := by simpa using hj
  rw [List.getD_eq_getElem?_getD, List.getElem?_eq_getElem hi, Option.getD_some] at h
  rw [List.getD_eq_getElem?_getD, List.getElem?_eq_getElem hj, Option.getD_some] at h
  refine (@List.Nodup.getElem_inj_iff _ _ hnodup i hi2 j hj2).mp ?_
  rw [List.getElem_map, List.getElem_map]
  exact h

/-- Membership characterization of the WAT-WAT part of `find_connections`. -/
theorem watWatConns_iff {asite : Option (List ASMember)} {waters : List WaterMolecule}
    {cutoff : ℚ} {c : Conn} :
    c ∈ watWatConns asite waters cutoff ↔
    ∃ i nb, i < waters.length ∧
      nb ∈ kQuery (waters.map (fun m => m.O.coords))
        ((waters.map (fun m => m.O.coords)).getD i ptDefault) 10 cutoff ∧
      nb ≠ i ∧
      (waters.getD i wmDefault).O.index < (waters.getD nb wmDefault).O.index ∧
      c = mkWWConn asite waters i nb := by
  unfold watWatConns
  simp only [List.mem_flatMap, List.mem_range, List.mem_filterMap]
  constructor
  · rintro ⟨i, hi, nb, hnb, hsome⟩
    obtain ⟨h1, h2, rfl⟩ := mkWW_some_elim hsome
    exact ⟨i, nb, hi, hnb, h1, h2, rfl⟩
  · rintro ⟨i, nb, hi, hnb, h1, h2, rfl⟩
    refine ⟨i, hi, nb, hnb, ?_⟩
    rw [if_pos h1, if_pos h2]

/-- Membership characterization of the WAT-PROT part of `find_connections`. -/
theorem watProtConns_iff {asite : Option (List ASMember)} {waters : List WaterMolecule}
    {protein : List OtherAtom} {cutoff : ℚ} {c : Conn} :
    c ∈ watProtConns asite waters protein cutoff ↔
    ∃ i nb, i < waters.length ∧
      nb ∈ kQuery (protein.map (fun a => a.coords))
        ((waters.map (fun m => m.O.coords)).getD i ptDefault) 10 cutoff ∧
      c = mkWPConn asite waters protein i nb := by
  unfold watProtConns
  simp only [List.mem_flatMap, List.mem_range, List.mem_map]
  constructor
  · rintro ⟨i, hi, nb, hnb, h⟩
    exact ⟨i, nb, hi, hnb, h.symm⟩
  · rintro ⟨i, nb, hi, hnb, rfl⟩
    exact ⟨i, hi, nb, hnb, rfl⟩

theorem btype_mkWPConn (asite : Option (List ASMember)) (waters : List WaterMolecule)
    (protein : List OtherAtom) (i nb : ℕ) :
    (mkWPConn asite waters protein i nb).btype = "WAT-PROT" := rfl

theorem btype_mkWWConn (asite : Option (List ASMember)) (waters : List WaterMolecule)
    (i nb : ℕ) : (mkWWConn asite waters i nb).btype = "WAT-WAT" := rfl

/-- Successful runs of `find_connections` return the WAT-WAT connections
followed by WAT-PROT connections only. -/
theorem findConnections_ok_shape {net : WaterNetwork} {cutoff : ℚ}
    {wa : List WaterMolecule} {pa : List OtherAtom} {aso wo : Bool} {cs : List Conn}
    (hok : findConnections net cutoff wa pa aso wo = .ok cs) :
    ∃ rest,
      cs = watWatConns net.active_site (if aso then wa else net.water_molecules) cutoff
        ++ rest ∧
      ∀ c ∈ rest, c.btype = "WAT-PROT" := by
  simp only [findConnections] at hok
  by_cases he : (if aso then wa else net.water_molecules).isEmpty = true
  · rw [if_pos he] at hok
    exact Except.noConfusion hok
  · rw [if_neg he] at hok
    by_cases hwo : wo = true
    · rw [if_pos hwo] at hok
      have hww := Except.ok.inj hok
      exact ⟨[], by rw [← hww, List.append_nil], by simp⟩
    · rw [if_neg hwo] at hok
      by_cases hpe : (if aso then pa else net.protein_atoms).isEmpty = true
      · rw [if_pos hpe] at hok
        exact Except.noConfusion hok
      · rw [if_neg hpe] at hok
        refine ⟨watProtConns net.active_site
          (if aso then wa else net.water_molecules)
          (if aso then pa else net.protein_atoms) cutoff,
          (Except.ok.inj hok).symm, ?_⟩
        intro c hc
        rcases watProtConns_iff.mp hc with ⟨i, nb, _, _, rfl⟩
        rfl

/-- No unordered pair of oxygen indices occurs twice among the WAT-WAT
connections, provided the scoped waters have distinct oxygen indices. -/
theorem watWatConns_pairwise (asite : Option (List ASMember))
    (waters : List WaterMolecule) (cutoff : ℚ)
    (hnodup : (waters.map (fun m => m.O.index)).Nodup) :
    (watWatConns asite waters cutoff).Pairwise (fun a b =>
      ¬ ((a.index1 = b.index1 ∧ a.index2 = b.index2) ∨
         (a.index1 = b.index2 ∧ a.index2 = b.index1))) := by
  unfold watWatConns
  rw [List.pairwise_flatMap]
  constructor
  · intro i hi
    rw [List.mem_range] at hi
    rw [List.pairwise_filterMap]
    refine List.Pairwise.imp_of_mem ?_ (kQuery_nodup _ _ _ _)
    intro nb nbp _ _ hne c hc cp hcp
    rw [Option.mem_def] at hc hcp
    obtain ⟨h1, h2, rfl⟩ := mkWW_some_elim hc
    obtain ⟨h1p, h2p, rfl⟩ := mkWW_some_elim hcp
    have hb := getD_oidx_lt_length h2
    have hbp := getD_oidx_lt_length h2p
    rintro (⟨hk1, hk2⟩ | ⟨hk1, hk2⟩)
    · exact hne (oidx_inj hnodup hb hbp hk2)
    · exact absurd hk1 (Nat.ne_of_lt h2p)
  · refine List.Pairwise.imp_of_mem ?_ (List.pairwise_lt_range _)
    intro i j hi hj hlt c hc cp hcp
    rw [List.mem_range] at hi hj
    rw [List.mem_filterMap] at hc hcp
    obtain ⟨nb, hnbmem, hcs⟩ := hc
    obtain ⟨nbp, hnbmemp, hcsp⟩ := hcp
    obtain ⟨h1, h2, rfl⟩ := mkWW_some_elim hcs
    obtain ⟨h1p, h2p, rfl⟩ := mkWW_some_elim hcsp
    rintro (⟨hk1, hk2⟩ | ⟨hk1, hk2⟩)
    · exact absurd (oidx_inj hnodup hi hj hk1) (Nat.ne_of_lt hlt)
    · have hcyc : (waters.getD i wmDefault).O.index <
          (waters.getD i wmDefault).O.index := by
        calc (waters.getD i wmDefault).O.index
            < (waters.getD nb wmDefault).O.index := h2
          _ = (waters.getD j wmDefault).O.index := hk2
          _ < (waters.getD nbp wmDefault).O.index := h2p
          _ = (waters.getD i wmDefault).O.index := hk1.symm
      exact absurd hcyc (lt_irrefl _)

/-- Claim C2: every WAT-WAT connection emitted by the undirected
`find_connections` lists the lower oxygen index first, and (given pairwise
distinct oxygen indices among the scoped waters, an invariant of per-frame
atom data) no unordered pair of oxygen indices occurs twice in the returned
connection list. -/
theorem C2_watwat_ordered_unique (net : WaterNetwork) (cutoff : ℚ)
    (water_active : List WaterMolecule) (protein_active : List OtherAtom)
    (active_site_only water_only : Bool) (cs : List Conn)
    (hnodup : ((if active_site_only then water_active else net.water_molecules).map
      (fun m => m.O.index)).Nodup)
    (hok : findConnections net cutoff water_active protein_active
      active_site_only water_only = .ok cs) :
    (∀ c ∈ cs, c.btype = "WAT-WAT" → c.index1 < c.index2) ∧
    (cs.filter (fun c => c.btype == "WAT-WAT")).Pairwise (fun a b =>
      ¬ ((a.index1 = b.index1 ∧ a.index2 = b.index2) ∨
         (a.index1 = b.index2 ∧ a.index2 = b.index1))) := by
  obtain ⟨rest, rfl, hrest⟩ := findConnections_ok_shape hok
  constructor
  · intro c hc hbt
    rcases List.mem_append.mp hc with hcw | hcr
    · obtain ⟨i, nb, hi, hnb, h1, h2, rfl⟩ := watWatConns_iff.mp hcw
      exact h2
    · exact absurd (hbt ▸ hrest c hcr) (by decide)
  · rw [List.filter_append]
    have hre : (rest.filter (fun c => c.btype == "WAT-WAT")) = [] := by
      rw [List.filter_eq_nil_iff]
      intro c hc
      simp [hrest c hc]
    have hww : ((watWatConns net.active_site
        (if active_site_only then water_active else net.water_molecules) cutoff).filter
        (fun c => c.btype == "WAT-WAT")) = watWatConns net.active_site
        (if active_site_only then water_active else net.water_molecules) cutoff := by
      rw [List.filter_eq_self]
      intro c hc
      obtain ⟨i, nb, _, _, _, _, rfl⟩ := watWatConns_iff.mp hc
      rfl
    rw [hre, hww, List.append_nil]
    exact watWatConns_pairwise _ _ _ hnodup

/-- Witness for C2 at a concrete two-water network. -/
theorem C2_witness :
    (∀ c ∈ [connC2w], c.btype = "WAT-WAT" → c.index1 < c.index2) ∧
    ([connC2w].filter
      (fun c => c.btype == "WAT-WAT")).Pairwise (fun a b =>
      ¬ ((a.index1 = b.index1 ∧ a.index2 = b.index2) ∨
         (a.index1 = b.index2 ∧ a.index2 = b.index1))) :=
  C2_watwat_ordered_unique netC1 (33 / 10) [] [] false true _
    (by decide) (by with_unfolding_all rfl)

/-- Claim C4 (amended): every WAT-WAT edge of the undirected finder carries
the tag computed by `siteStatusWW` from the residue of its FIRST endpoint
(the lower-index water): None when no active site is defined, active_site
when that water's residue matches the residue of some active-site member,
and not_active_site otherwise.  The residue of the second (higher-index)
endpoint is not consulted. -/
theorem C4_amended_tag (net : WaterNetwork) (cutoff : ℚ)
    (water_active : List WaterMolecule) (protein_active : List OtherAtom)
    (active_site_only water_only : Bool) (cs : List Conn)
    (hok : findConnections net cutoff water_active protein_active
      active_site_only water_only = .ok cs) :
    ∀ c ∈ cs, c.btype = "WAT-WAT" →
      ∃ m ∈ (if active_site_only then water_active else net.water_molecules),
        c.index1 = m.O.index ∧ c.site = siteStatusWW net.active_site m.resid := by
  obtain ⟨rest, rfl, hrest⟩ := findConnections_ok_shape hok
  intro c hc hbt
  rcases List.mem_append.mp hc with hcw | hcr
  · obtain ⟨i, nb, hi, hnb, h1, h2, rfl⟩ := watWatConns_iff.mp hcw
    refine ⟨(if active_site_only then water_active else net.water_molecules).getD i
      wmDefault, ?_, rfl, rfl⟩
    rw [List.getD_eq_getElem?_getD, List.getElem?_eq_getElem hi, Option.getD_some]
    exact List.getElem_mem hi
  · exact absurd (hbt ▸ hrest c hcr) (by decide)

/-- Witness for the amended C4 at `netC4`, instantiated on its single
emitted connection. -/
theorem C4_witness :
    connC4 ∈ [connC4] ∧ connC4.btype = "WAT-WAT" ∧
    ∃ m ∈ (if false then [] else netC4.water_molecules),
      connC4.index1 = m.O.index ∧
        connC4.site = siteStatusWW netC4.active_site m.resid :=
  ⟨List.mem_singleton.mpr rfl, rfl,
    C4_amended_tag netC4 (33 / 10) [] [] false true [connC4]
      (by with_unfolding_all rfl) connC4 (List.mem_singleton.mpr rfl) rfl⟩

/-- Claim C5: membership in the returned active set.  A protein atom whose
residue occurs among the reference residues is included regardless of
distance; any other protein atom is included iff its minimum PBC-aware
distance to a reference atom is at most the radius; a water molecule is
included iff the minimum (plain) distance from any of its three atoms to a
reference atom is at most the radius; `protein_active` holds exactly the
non-reference in-range protein atoms. -/
theorem C5_active_site_spec (net : WaterNetwork) (reference : List RefAtom)
    (box : Option Pt) (radius : ℚ) (asList : List ASMember)
    (protein_active : List OtherAtom) (water_active : List WaterMolecule)
    (href : reference ≠ [])
    (hok : selectActiveSite net reference box radius =
      Except.ok (asList, protein_active, water_active)) :
    (∀ a ∈ net.protein_atoms,
      (ASMember.prot a ∈ asList ↔
        (a.resid ∈ reference.map RefAtom.resid ∨
          protNearRef box (reference.map RefAtom.position) radius a = true))) ∧
    (∀ m ∈ net.water_molecules,
      (ASMember.wat m ∈ asList ↔
        watNearRef (reference.map RefAtom.position) radius m = true)) ∧
    (∀ a ∈ net.protein_atoms,
      (a ∈ protein_active ↔
        (a.resid ∉ reference.map RefAtom.resid ∧
          protNearRef box (reference.map RefAtom.position) radius a = true))) ∧
    (∀ m ∈ net.water_molecules,
      (m ∈ water_active ↔ watNearRef (reference.map RefAtom.position) radius m = true)) := by
  simp only [selectActiveSite] at hok
  rw [if_neg (by simp [href])] at hok
  have h := Except.ok.inj hok
  have h1 : (net.protein_atoms.filter (fun a =>
      (reference.map RefAtom.resid).contains a.resid ||
        protNearRef box (reference.map RefAtom.position) radius a)).map ASMember.prot ++
      (net.water_molecules.filter
        (watNearRef (reference.map RefAtom.position) radius)).map ASMember.wat = asList :=
    congrArg Prod.fst h
  have h2 : net.protein_atoms.filter (fun a =>
      !((reference.map RefAtom.resid).contains a.resid) &&
        protNearRef box (reference.map RefAtom.position) radius a) = protein_active :=
    congrArg (fun t => t.2.1) h
  have h3 : net.water_molecules.filter
      (watNearRef (reference.map RefAtom.position) radius) = water_active :=
    congrArg (fun t => t.2.2) h
  refine ⟨?_, ?_, ?_, ?_⟩
  · intro a ha
    rw [← h1]
    constructor
    · intro hin
      rcases List.mem_append.mp hin with hp | hw
      · obtain ⟨a2, ha2, heq⟩ := List.mem_map.mp hp
        obtain rfl : a2 = a := by cases heq; rfl
        have hcond := (List.mem_filter.mp ha2).2
        rw [Bool.or_eq_true] at hcond
        rcases hcond with hcc | hcc
        · exact Or.inl (by simpa [List.contains, List.elem_iff] using hcc)
        · exact Or.inr hcc
      · obtain ⟨m, _, heq⟩ := List.mem_map.mp hw
        exact absurd heq (by simp)
    · intro hcond
      apply List.mem_append_left
      apply List.mem_map_of_mem
      refine List.mem_filter.mpr ⟨ha, ?_⟩
      rw [Bool.or_eq_true]
      rcases hcond with hcc | hcc
      · exact Or.inl (by simpa [List.contains, List.elem_iff] using hcc)
      · exact Or.inr hcc
  · intro m hm
    rw [← h1]
    constructor
    · intro hin
      rcases List.mem_append.mp hin with hp | hw
      · obtain ⟨a2, _, heq⟩ := List.mem_map.mp hp
        exact absurd heq (by simp)
      · obtain ⟨m2, hm2, heq⟩ := List.mem_map.mp hw
        obtain rfl : m2 = m := by cases heq; rfl
        exact (List.mem_filter.mp hm2).2
    · intro hcond
      exact List.mem_append_right _
        (List.mem_map_of_mem _ (List.mem_filter.mpr ⟨hm, hcond⟩))
  · intro a ha
    rw [← h2]
    constructor
    · intro hin
      have hcond := (List.mem_filter.mp hin).2
      simp only [List.contains, Bool.and_eq_true, Bool.not_eq_true'] at hcond
      refine ⟨fun hmem => ?_, hcond.2⟩
      have hel := List.elem_iff.mpr hmem
      rw [hcond.1] at hel
      exact Bool.false_ne_true hel
    · intro hcond
      refine List.mem_filter.mpr ⟨ha, ?_⟩
      simp only [List.contains, Bool.and_eq_true, Bool.not_eq_true']
      refine ⟨?_, hcond.2⟩
      cases hb : List.elem a.resid (reference.map RefAtom.resid)
      · rfl
      · exact absurd (List.elem_iff.mp hb) hcond.1
  · intro m hm
    rw [← h3]
    constructor
    · intro hin
      exact (List.mem_filter.mp hin).2
    · intro hcond
      exact List.mem_filter.mpr ⟨hm, hcond⟩

/-- `getD` commutes with `map` at in-range positions. -/
theorem getD_map_of_lt {α β : Type} (f : α → β) (l : List α) {i : ℕ}
    (hi : i < l.length) (d : β) (d2 : α) :
    (l.map f).getD i d = f (l.getD i d2) := by
  rw [List.getD_eq_getElem?_getD, List.getElem?_eq_getElem (by simpa using hi),
    Option.getD_some, List.getElem_map, List.getD_eq_getElem?_getD,
    List.getElem?_eq_getElem hi, Option.getD_some]

/-- The rows of `waterHList`. -/
theorem mem_waterHList {waters : List WaterMolecule} {e : ℕ × Pt × String} :
    e ∈ waterHList waters ↔
    ∃ m ∈ waters, e = (m.O.index, m.H1.coords, "H1") ∨
      e = (m.O.index, m.H2.coords, "H2") := by
  unfold waterHList
  simp only [List.mem_flatMap, List.mem_cons, List.mem_singleton, List.not_mem_nil, or_false]

/-- The rows of `waterOList`. -/
theorem mem_waterOList {waters : List WaterMolecule} {e : ℕ × Pt × String} :
    e ∈ waterOList waters ↔ ∃ m ∈ waters, e = (m.O.index, m.O.coords, "O") := by
  unfold waterOList
  simp only [List.mem_map]
  constructor
  · rintro ⟨m, hm, h⟩
    exact ⟨m, hm, h.symm⟩
  · rintro ⟨m, hm, h⟩
    exact ⟨m, hm, h.symm⟩

/-- With `angle_criteria=None` the directed finder never fails; its output
is the protein part (unless water_only) followed by the water-water part. -/
theorem findDirected_none_eq (net : WaterNetwork) (cutoff : ℚ)
    (wa : List WaterMolecule) (pa : List OtherAtom) (aso wo : Bool) :
    findDirectedConnections net cutoff wa pa aso wo none =
      .ok ((if wo then [] else dirProtOut aso net.active_site
          (if aso then wa else net.water_molecules)
          (if aso then pa else net.protein_atoms) cutoff) ++
        dirWWnoneOut aso net.active_site (if aso then wa else net.water_molecules) cutoff) := by
  by_cases hwo : wo = true
  · subst hwo
    rfl
  · have hwf : wo = false := by simpa using hwo
    subst hwf
    rfl

/-- A run of the protein half with an angle criterion only returns normally
when both protein queries are matchless; the corresponding None run then
returns no protein connections either. -/
theorem dirProtPart_some_ok {aso : Bool} {asite : Option (List ASMember)}
    {waters : List WaterMolecule} {protein : List OtherAtom} {cutoff : ℚ}
    {wo : Bool} {ap : Pt → Pt → Bool} {pcs : List Conn}
    (h : dirProtPart aso asite waters protein cutoff wo (some ap) = .ok pcs) :
    pcs = [] ∧ dirProtPart aso asite waters protein cutoff wo none = .ok [] := by
  unfold dirProtPart at h ⊢
  by_cases hwo : wo = true
  · rw [if_pos hwo] at h ⊢
    exact ⟨(Except.ok.inj h).symm, rfl⟩
  · rw [if_neg hwo] at h ⊢
    by_cases hm1 : (dirPHmatches waters (protHList protein) cutoff).isEmpty = true
    · rw [if_pos hm1] at h
      by_cases hm2 : (dirPOmatches waters (protOList protein) cutoff).isEmpty = true
      · rw [if_pos hm2] at h
        refine ⟨(Except.ok.inj h).symm, ?_⟩
        have hp : dirProtOut aso asite waters protein cutoff = [] := by
          unfold dirProtOut
          rw [List.isEmpty_iff.mp hm1, List.isEmpty_iff.mp hm2]
          rfl
        rw [hp]
      · rw [if_neg hm2] at h
        exact Except.noConfusion h
    · rw [if_neg hm1] at h
      exact Except.noConfusion h

/-- A successful run with an angle criterion returns exactly the angle-passed
water-water connections, and the corresponding None run returns exactly the
unfiltered water-water connections (the protein branches were necessarily
matchless, or the run would have raised). -/
theorem findDirected_some_ok_elim {net : WaterNetwork} {cutoff : ℚ}
    {wa : List WaterMolecule} {pa : List OtherAtom} {aso wo : Bool}
    {ap : Pt → Pt → Bool} {cs : List Conn}
    (hok : findDirectedConnections net cutoff wa pa aso wo (some ap) = .ok cs) :
    cs = dirWWsomeOut net.water_molecules aso net.active_site
      (if aso then wa else net.water_molecules) cutoff ap ∧
    findDirectedConnections net cutoff wa pa aso wo none =
      .ok (dirWWnoneOut aso net.active_site (if aso then wa else net.water_molecules) cutoff) := by
  simp only [findDirectedConnections] at hok
  cases hp : dirProtPart aso net.active_site (if aso then wa else net.water_molecules)
      (if aso then pa else net.protein_atoms) cutoff wo (some ap) with
  | error e =>
    rw [hp] at hok
    exact Except.noConfusion hok
  | ok pcs =>
    rw [hp] at hok
    obtain ⟨rfl, hnone⟩ := dirProtPart_some_ok hp
    dsimp only at hok
    by_cases hany : ((dirWWcand (if aso then wa else net.water_molecules) cutoff).any
        (fun t => (net.water_molecules.find? (fun w =>
          w.O.index == (waterHList (if aso then wa else net.water_molecules) |>.getD t.1
            (0, ptDefault, "")).1)).isNone)) = true
    · rw [if_pos hany] at hok
      exact Except.noConfusion hok
    · rw [if_neg hany] at hok
      refine ⟨by rw [← Except.ok.inj hok, List.nil_append], ?_⟩
      simp only [findDirectedConnections]
      rw [hnone]
      rfl

/-- Every angle-filtered water-water connection also occurs in the
unfiltered output. -/
theorem dirWWsomeOut_subset (allWaters : List WaterMolecule) (aso : Bool)
    (asite : Option (List ASMember)) (waters : List WaterMolecule) (cutoff : ℚ)
    (ap : Pt → Pt → Bool) :
    ∀ c ∈ dirWWsomeOut allWaters aso asite waters cutoff ap,
      c ∈ dirWWnoneOut aso asite waters cutoff := by
  intro c hc
  unfold dirWWsomeOut at hc
  unfold dirWWnoneOut
  rw [List.mem_filterMap] at hc ⊢
  obtain ⟨t, ht, hsome⟩ := hc
  refine ⟨t, ht, ?_⟩
  by_cases hcond : (ap (dirWWvecs allWaters waters t).1 (dirWWvecs allWaters waters t).2 &&
      decide ((waterHList waters |>.getD t.1 (0, ptDefault, "")).1 <
        (waterOList waters |>.getD t.2 (0, ptDefault, "")).1)) = true
  · rw [if_pos hcond] at hsome
    rw [Bool.and_eq_true, decide_eq_true_iff] at hcond
    rw [if_pos hcond.2]
    exact hsome
  · rw [if_neg hcond] at hsome
    exact Option.noConfusion hsome

/-- Elimination for the angle-filtered water-water output: every connection
passed the angle test on the two vectors the source forms. -/
theorem mem_dirWWsomeOut {allWaters : List WaterMolecule} {aso : Bool}
    {asite : Option (List ASMember)} {waters : List WaterMolecule} {cutoff : ℚ}
    {ap : Pt → Pt → Bool} {c : Conn}
    (hc : c ∈ dirWWsomeOut allWaters aso asite waters cutoff ap) :
    ∃ t ∈ dirWWcand waters cutoff, c = dirWWconn aso asite waters t ∧
      ap (dirWWvecs allWaters waters t).1 (dirWWvecs allWaters waters t).2 = true := by
  unfold dirWWsomeOut at hc
  rw [List.mem_filterMap] at hc
  obtain ⟨t, ht, hsome⟩ := hc
  by_cases hcond : (ap (dirWWvecs allWaters waters t).1 (dirWWvecs allWaters waters t).2 &&
      decide ((waterHList waters |>.getD t.1 (0, ptDefault, "")).1 <
        (waterOList waters |>.getD t.2 (0, ptDefault, "")).1)) = true
  · rw [if_pos hcond] at hsome
    rw [Bool.and_eq_true] at hcond
    exact ⟨t, ht, (Option.some.inj hsome).symm, hcond.1⟩
  · rw [if_neg hcond] at hsome
    exact Option.noConfusion hsome

/-- Claim C3 (amended): whenever a directed-connection call with an angle
criterion returns normally, every returned connection passed the angle test
on the vectors the source forms, and the returned edge set is a subset of
the `angle_criteria=None` edge set (which the corresponding None call
returns).  Strictness of the reverse inclusion does not hold for every
input. -/
theorem C3_amended (net : WaterNetwork) (cutoff : ℚ)
    (water_active : List WaterMolecule) (protein_active : List OtherAtom)
    (active_site_only water_only : Bool) (ap : Pt → Pt → Bool) (cs : List Conn)
    (hok : findDirectedConnections net cutoff water_active protein_active
      active_site_only water_only (some ap) = .ok cs) :
    (∃ cs0, findDirectedConnections net cutoff water_active protein_active
        active_site_only water_only none = .ok cs0 ∧ ∀ c ∈ cs, c ∈ cs0) ∧
    (∀ c ∈ cs, ∃ t ∈ dirWWcand
        (if active_site_only then water_active else net.water_molecules) cutoff,
      c = dirWWconn active_site_only net.active_site
        (if active_site_only then water_active else net.water_molecules) t ∧
      ap (dirWWvecs net.water_molecules
          (if active_site_only then water_active else net.water_molecules) t).1
        (dirWWvecs net.water_molecules
          (if active_site_only then water_active else net.water_molecules) t).2 = true) := by
  obtain ⟨rfl, hnone⟩ := findDirected_some_ok_elim hok
  refine ⟨⟨_, hnone, ?_⟩, ?_⟩
  · exact dirWWsomeOut_subset _ _ _ _ _ _
  · intro c hc
    exact mem_dirWWsomeOut hc

set_option maxRecDepth 10000 in
/-- Witness for the amended C3 at `netC3w` with an always-true angle test. -/
theorem C3_witness :
    (∃ cs0, findDirectedConnections netC3w 2 [] [] false true none = .ok cs0 ∧
      ∀ c ∈ [connC3w], c ∈ cs0) ∧
    (∀ c ∈ [connC3w], ∃ t ∈ dirWWcand
        (if false then [] else netC3w.water_molecules) 2,
      c = dirWWconn false netC3w.active_site
        (if false then [] else netC3w.water_molecules) t ∧
      (fun _ _ => true : Pt → Pt → Bool) (dirWWvecs netC3w.water_molecules
          (if false then [] else netC3w.water_molecules) t).1
        (dirWWvecs netC3w.water_molecules
          (if false then [] else netC3w.water_molecules) t).2 = true) :=
  C3_amended netC3w 2 [] [] false true (fun _ _ => true) [connC3w]
    (by with_unfolding_all rfl)

theorem getD_eq_getElem_of_lt {α : Type} {l : List α} {i : ℕ}
    (hi : i < l.length) (d : α) : l.getD i d = l[i] := by
  rw [List.getD_eq_getElem?_getD, List.getElem?_eq_getElem hi, Option.getD_some]

theorem getD_mem_of_lt {α : Type} {l : List α} {i : ℕ} (hi : i < l.length) (d : α) :
    l.getD i d ∈ l := by
  rw [getD_eq_getElem_of_lt hi]
  exact List.getElem_mem hi

theorem length_waterOList (waters : List WaterMolecule) :
    (waterOList waters).length = waters.length := by
  unfold waterOList
  rw [List.length_map]

theorem length_waterHList (waters : List WaterMolecule) :
    (waterHList waters).length = 2 * waters.length := by
  unfold waterHList
  induction waters with
  | nil => rfl
  | cons m tl ih =>
    rw [List.flatMap_cons, List.length_append, ih, List.length_cons]
    simp
    omega

/-- Any `getD` row of `waterOList` at an in-range position is the oxygen
row of a member water. -/
theorem waterOList_getD {waters : List WaterMolecule} {i : ℕ}
    (hi : i < (waterOList waters).length) :
    ∃ m ∈ waters, (waterOList waters).getD i (0, ptDefault, "") =
      (m.O.index, m.O.coords, "O") := by
  refine ⟨waters.getD i wmDefault, ?_, ?_⟩
  · exact getD_mem_of_lt (by rwa [length_waterOList] at hi) wmDefault
  · unfold waterOList
    rw [getD_map_of_lt _ _ (by rwa [length_waterOList] at hi) _ wmDefault]

/-- Any `getD` row of `waterHList` at an in-range position is an H1 or H2
row of a member water. -/
theorem waterHList_getD {waters : List WaterMolecule} {i : ℕ}
    (hi : i < (waterHList waters).length) :
    ∃ m ∈ waters, (waterHList waters).getD i (0, ptDefault, "") =
        (m.O.index, m.H1.coords, "H1") ∨
      (waterHList waters).getD i (0, ptDefault, "") = (m.O.index, m.H2.coords, "H2") := by
  have hmem : (waterHList waters).getD i (0, ptDefault, "") ∈ waterHList waters :=
    getD_mem_of_lt hi _
  obtain ⟨m, hm, h⟩ := mem_waterHList.mp hmem
  exact ⟨m, hm, h⟩

/-- Elimination for first-protein-branch matches: each names a protein
hydrogen and a water oxygen within the cutoff of each other. -/
theorem dirPHmatches_elim {waters : List WaterMolecule} {pH : List OtherAtom}
    {cutoff : ℚ} {t : ℕ × ℕ} (ht : t ∈ dirPHmatches waters pH cutoff) :
    ∃ m ∈ waters, ∃ p ∈ pH,
      (waterOList waters).getD t.1 (0, ptDefault, "") = (m.O.index, m.O.coords, "O") ∧
      pH.getD t.2 oaDefault = p ∧
      distLE (sqDist p.coords m.O.coords) cutoff = true := by
  unfold dirPHmatches at ht
  rw [List.mem_flatMap] at ht
  obtain ⟨inear, hinear, hmm⟩ := ht
  rw [List.mem_range] at hinear
  rw [List.mem_map] at hmm
  obtain ⟨nb, hnb, heq⟩ := hmm
  obtain ⟨rfl, rfl⟩ : inear = t.1 ∧ nb = t.2 := by
    cases heq; exact ⟨rfl, rfl⟩
  obtain ⟨hnb2, hd⟩ := mem_kQuery hnb
  rw [List.length_map] at hnb2
  obtain ⟨m, hm, hrow⟩ := waterOList_getD hinear
  refine ⟨m, hm, pH.getD t.2 oaDefault, getD_mem_of_lt hnb2 _, hrow, rfl, ?_⟩
  rw [getD_map_of_lt _ _ hnb2 _ oaDefault, hrow] at hd
  exact hd

/-- Elimination for second-protein-branch matches. -/
theorem dirPOmatches_elim {waters : List WaterMolecule} {pO : List OtherAtom}
    {cutoff : ℚ} {t : ℕ × ℕ} (ht : t ∈ dirPOmatches waters pO cutoff) :
    ∃ m ∈ waters, ∃ q ∈ pO, ∃ hc : Pt, ∃ hn : String,
      ((hc, hn) = (m.H1.coords, "H1") ∨ (hc, hn) = (m.H2.coords, "H2")) ∧
      (waterHList waters).getD t.1 (0, ptDefault, "") = (m.O.index, hc, hn) ∧
      pO.getD t.2 oaDefault = q ∧
      distLE (sqDist q.coords hc) cutoff = true := by
  unfold dirPOmatches at ht
  rw [List.mem_flatMap] at ht
  obtain ⟨inear, hinear, hmm⟩ := ht
  rw [List.mem_range] at hinear
  rw [List.mem_map] at hmm
  obtain ⟨nb, hnb, heq⟩ := hmm
  obtain ⟨rfl, rfl⟩ : inear = t.1 ∧ nb = t.2 := by
    cases heq; exact ⟨rfl, rfl⟩
  obtain ⟨hnb2, hd⟩ := mem_kQuery hnb
  rw [List.length_map] at hnb2
  obtain ⟨m, hm, hrow⟩ := waterHList_getD hinear
  rcases hrow with hrow | hrow
  · refine ⟨m, hm, pO.getD t.2 oaDefault, getD_mem_of_lt hnb2 _,
      m.H1.coords, "H1", Or.inl rfl, hrow, rfl, ?_⟩
    rw [getD_map_of_lt _ _ hnb2 _ oaDefault, hrow] at hd
    exact hd
  · refine ⟨m, hm, pO.getD t.2 oaDefault, getD_mem_of_lt hnb2 _,
      m.H2.coords, "H2", Or.inr rfl, hrow, rfl, ?_⟩
    rw [getD_map_of_lt _ _ hnb2 _ oaDefault, hrow] at hd
    exact hd

/-- Elimination for directed water-water candidates: a hydrogen of one water
within the cutoff of the oxygen of a DIFFERENT water. -/
theorem dirWWcand_elim {waters : List WaterMolecule} {cutoff : ℚ} {t : ℕ × ℕ}
    (ht : t ∈ dirWWcand waters cutoff) :
    ∃ m ∈ waters, ∃ m2 ∈ waters, ∃ hc : Pt, ∃ hn : String,
      ((hc, hn) = (m.H1.coords, "H1") ∨ (hc, hn) = (m.H2.coords, "H2")) ∧
      (waterHList waters).getD t.1 (0, ptDefault, "") = (m.O.index, hc, hn) ∧
      (waterOList waters).getD t.2 (0, ptDefault, "") = (m2.O.index, m2.O.coords, "O") ∧
      m.O.index ≠ m2.O.index ∧
      distLE (sqDist m2.O.coords hc) cutoff = true := by
  unfold dirWWcand at ht
  rw [List.mem_flatMap] at ht
  obtain ⟨inear, hinear, hmm⟩ := ht
  rw [List.mem_range] at hinear
  rw [List.mem_filterMap] at hmm
  obtain ⟨nb, hnb, hsome⟩ := hmm
  by_cases hne : ((waterHList waters).getD inear (0, ptDefault, "")).1 ≠
      ((waterOList waters).getD nb (0, ptDefault, "")).1
  · rw [if_pos hne] at hsome
    obtain ⟨rfl, rfl⟩ : inear = t.1 ∧ nb = t.2 := by
      cases hsome; exact ⟨rfl, rfl⟩
    obtain ⟨hnb2, hd⟩ := mem_kQuery hnb
    rw [List.length_map] at hnb2
    have hnbO : t.2 < (waterOList waters).length := hnb2
    obtain ⟨m, hm, hrow⟩ := waterHList_getD hinear
    obtain ⟨m2, hm2, hrow2⟩ := waterOList_getD hnbO
    have hd2 : distLE (sqDist m2.O.coords
        ((waterHList waters).getD t.1 (0, ptDefault, "")).2.1) cutoff = true := by
      rw [getD_map_of_lt _ _ hnbO _ (0, ptDefault, "")] at hd
      rw [show ((waterOList waters).getD t.2 (0, ptDefault, "")).2.1 = m2.O.coords from
        by rw [hrow2]] at hd
      exact hd
    have hneidx : m.O.index ≠ m2.O.index := by
      intro hcontra
      apply hne
      rw [hrow2]
      rcases hrow with hrow | hrow <;> rw [hrow] <;> exact hcontra
    rcases hrow with hrow | hrow
    · refine ⟨m, hm, m2, hm2, m.H1.coords, "H1", Or.inl rfl, hrow, hrow2, hneidx, ?_⟩
      rw [hrow] at hd2
      exact hd2
    · refine ⟨m, hm, m2, hm2, m.H2.coords, "H2", Or.inr rfl, hrow, hrow2, hneidx, ?_⟩
      rw [hrow] at hd2
      exact hd2
  · rw [if_neg hne] at hsome
    exact Option.noConfusion hsome

/-- Soundness of the undirected WAT-WAT connections: the endpoints are two
member waters within the cutoff of each other. -/
theorem watWatConns_sound {asite : Option (List ASMember)}
    {waters : List WaterMolecule} {cutoff : ℚ} {c : Conn}
    (hc : c ∈ watWatConns asite waters cutoff) :
    ∃ m ∈ waters, ∃ m2 ∈ waters, c.index1 = m.O.index ∧ c.index2 = m2.O.index ∧
      distLE (sqDist m2.O.coords m.O.coords) cutoff = true := by
  obtain ⟨i, nb, hi, hnb, h1, h2, rfl⟩ := watWatConns_iff.mp hc
  obtain ⟨hnb2, hd⟩ := mem_kQuery hnb
  rw [List.length_map] at hnb2
  rw [getD_map_of_lt _ _ hnb2 _ wmDefault, getD_map_of_lt _ _ hi _ wmDefault] at hd
  exact ⟨waters.getD i wmDefault, getD_mem_of_lt hi _,
    waters.getD nb wmDefault, getD_mem_of_lt hnb2 _, rfl, rfl, hd⟩

/-- Soundness of the undirected WAT-PROT connections: a member protein atom
within the cutoff of a member water oxygen. -/
theorem watProtConns_sound {asite : Option (List ASMember)}
    {waters : List WaterMolecule} {protein : List OtherAtom} {cutoff : ℚ} {c : Conn}
    (hc : c ∈ watProtConns asite waters protein cutoff) :
    ∃ m ∈ waters, ∃ p ∈ protein, c.index1 = p.index ∧ c.index2 = m.O.index ∧
      distLE (sqDist p.coords m.O.coords) cutoff = true := by
  obtain ⟨i, nb, hi, hnb, rfl⟩ := watProtConns_iff.mp hc
  obtain ⟨hnb2, hd⟩ := mem_kQuery hnb
  rw [List.length_map] at hnb2
  rw [getD_map_of_lt _ _ hnb2 _ oaDefault, getD_map_of_lt _ _ hi _ wmDefault] at hd
  exact ⟨waters.getD i wmDefault, getD_mem_of_lt hi _,
    protein.getD nb oaDefault, getD_mem_of_lt hnb2 _, rfl, rfl, hd⟩

/-- Every connection of a successful directed run stems from one of the
three branches. -/
theorem findDirected_ok_cases {net : WaterNetwork} {cutoff : ℚ}
    {wa : List WaterMolecule} {pa : List OtherAtom} {aso wo : Bool}
    {angle : Option (Pt → Pt → Bool)} {cs : List Conn}
    (hok : findDirectedConnections net cutoff wa pa aso wo angle = .ok cs) :
    ∀ c ∈ cs,
      (∃ t ∈ dirPHmatches (if aso then wa else net.water_molecules)
          (protHList (if aso then pa else net.protein_atoms)) cutoff,
        c = dirPHconn aso net.active_site (if aso then wa else net.water_molecules)
          (protHList (if aso then pa else net.protein_atoms)) t) ∨
      (∃ t ∈ dirPOmatches (if aso then wa else net.water_molecules)
          (protOList (if aso then pa else net.protein_atoms)) cutoff,
        c = dirPOconn aso net.active_site (if aso then wa else net.water_molecules)
          (protOList (if aso then pa else net.protein_atoms)) t) ∨
      (∃ t ∈ dirWWcand (if aso then wa else net.water_molecules) cutoff,
        c = dirWWconn aso net.active_site (if aso then wa else net.water_molecules) t) := by
  intro c hc
  rcases angle with _ | ap
  · rw [findDirected_none_eq] at hok
    rw [← Except.ok.inj hok] at hc
    rcases List.mem_append.mp hc with hcp | hcw
    · by_cases hwo : wo = true
      · rw [if_pos hwo] at hcp
        exact absurd hcp (List.not_mem_nil c)
      · rw [if_neg hwo] at hcp
        unfold dirProtOut at hcp
        rcases List.mem_append.mp hcp with hc1 | hc2
        · obtain ⟨t, ht, heq⟩ := List.mem_map.mp hc1
          exact Or.inl ⟨t, ht, heq.symm⟩
        · obtain ⟨t, ht, heq⟩ := List.mem_map.mp hc2
          exact Or.inr (Or.inl ⟨t, ht, heq.symm⟩)
    · unfold dirWWnoneOut at hcw
      rw [List.mem_filterMap] at hcw
      obtain ⟨t, ht, hsome⟩ := hcw
      by_cases hlt : ((waterHList (if aso then wa else net.water_molecules)).getD t.1
          (0, ptDefault, "")).1 < ((waterOList (if aso then wa else
            net.water_molecules)).getD t.2 (0, ptDefault, "")).1
      · rw [if_pos hlt] at hsome
        exact Or.inr (Or.inr ⟨t, ht, (Option.some.inj hsome).symm⟩)
      · rw [if_neg hlt] at hsome
        exact Option.noConfusion hsome
  · obtain ⟨rfl, _⟩ := findDirected_some_ok_elim hok
    obtain ⟨t, ht, heq, _⟩ := mem_dirWWsomeOut hc
    exact Or.inr (Or.inr ⟨t, ht, heq⟩)

/-- Completeness of the undirected WAT-WAT search when the query limit
cannot truncate (at most k=10 waters): every in-cutoff ordered pair of
member waters yields its connection. -/
theorem watWatConns_complete {asite : Option (List ASMember)}
    {waters : List WaterMolecule} {cutoff : ℚ} (hk : waters.length ≤ 10)
    {m m2 : WaterMolecule} (hm : m ∈ waters) (hm2 : m2 ∈ waters)
    (hlt : m.O.index < m2.O.index)
    (hd : distLE (sqDist m2.O.coords m.O.coords) cutoff = true) :
    (⟨m.O.index, m2.O.index, "O", "WAT-WAT", siteStatusWW asite m.resid, none⟩ : Conn) ∈
      watWatConns asite waters cutoff := by
  obtain ⟨i, hi, hieq⟩ := List.getElem_of_mem hm
  obtain ⟨nb, hnb, hnbeq⟩ := List.getElem_of_mem hm2
  have hgi : waters.getD i wmDefault = m := by rw [getD_eq_getElem_of_lt hi]; exact hieq
  have hgnb : waters.getD nb wmDefault = m2 := by rw [getD_eq_getElem_of_lt hnb]; exact hnbeq
  have hne : nb ≠ i := by
    intro h
    rw [h, hgi] at hgnb
    rw [hgnb] at hlt
    exact lt_irrefl _ hlt
  apply watWatConns_iff.mpr
  refine ⟨i, nb, hi, ?_, hne, ?_, ?_⟩
  · apply mem_kQuery_of_le
    · rw [List.length_map]; exact hk
    · rw [List.length_map]; exact hnb
    · rw [getD_map_of_lt _ _ hnb _ wmDefault, getD_map_of_lt _ _ hi _ wmDefault, hgi, hgnb]
      exact hd
  · rw [hgi, hgnb]; exact hlt
  · unfold mkWWConn
    rw [hgi, hgnb]

/-- Completeness of the first directed protein branch (protein hydrogen
donor, water oxygen acceptor) when the query limit cannot truncate. -/
theorem dirProtOut_completeH {aso : Bool} {asite : Option (List ASMember)}
    {waters : List WaterMolecule} {protein : List OtherAtom} {cutoff : ℚ}
    (hk : (protHList protein).length ≤ 10) {p : OtherAtom} {m : WaterMolecule}
    (hp : p ∈ protHList protein) (hm : m ∈ waters)
    (hd : distLE (sqDist p.coords m.O.coords) cutoff = true) :
    ∃ s, (⟨p.index, m.O.index, p.name, "WAT-PROT", s, none⟩ : Conn) ∈
      dirProtOut aso asite waters protein cutoff := by
  obtain ⟨i, hi, hieq⟩ := List.getElem_of_mem hm
  obtain ⟨nb, hnb, hnbeq⟩ := List.getElem_of_mem hp
  have hgw : (waterOList waters).getD i (0, ptDefault, "") =
      (m.O.index, m.O.coords, "O") := by
    unfold waterOList
    rw [getD_map_of_lt _ _ hi _ wmDefault, getD_eq_getElem_of_lt hi, hieq]
  have hgp : (protHList protein).getD nb oaDefault = p := by
    rw [getD_eq_getElem_of_lt hnb]; exact hnbeq
  have hqmem : nb ∈ kQuery ((protHList protein).map (fun a => a.coords))
      (((waterOList waters).getD i (0, ptDefault, "")).2.1) 10 cutoff := by
    rw [hgw]
    apply mem_kQuery_of_le
    · rw [List.length_map]; exact hk
    · rw [List.length_map]; exact hnb
    · rw [getD_map_of_lt _ _ hnb _ oaDefault, hgp]
      exact hd
  have hmatch : (i, nb) ∈ dirPHmatches waters (protHList protein) cutoff := by
    unfold dirPHmatches
    rw [List.mem_flatMap]
    refine ⟨i, List.mem_range.mpr (by rw [length_waterOList]; exact hi), ?_⟩
    rw [List.mem_map]
    exact ⟨nb, hqmem, rfl⟩
  refine ⟨siteStatusIdx aso asite
    ((waterHList waters).getD i (0, ptDefault, "")).1 p.index, ?_⟩
  have hconn : dirPHconn aso asite waters (protHList protein) (i, nb) =
      ⟨p.index, m.O.index, p.name, "WAT-PROT", siteStatusIdx aso asite
        ((waterHList waters).getD i (0, ptDefault, "")).1 p.index, none⟩ := by
    unfold dirPHconn
    dsimp only
    rw [hgw, hgp]
  unfold dirProtOut
  apply List.mem_append_left
  rw [← hconn]
  exact List.mem_map_of_mem _ hmatch

/-- Completeness of the second directed protein branch (water hydrogen
donor, protein acceptor) when the query limit cannot truncate. -/
theorem dirProtOut_completeO {aso : Bool} {asite : Option (List ASMember)}
    {waters : List WaterMolecule} {protein : List OtherAtom} {cutoff : ℚ}
    (hk : (protOList protein).length ≤ 10) {q : OtherAtom} {m : WaterMolecule}
    {hc : Pt} {hn : String} (hq : q ∈ protOList protein) (hm : m ∈ waters)
    (hhn : (hc, hn) = (m.H1.coords, "H1") ∨ (hc, hn) = (m.H2.coords, "H2"))
    (hd : distLE (sqDist q.coords hc) cutoff = true) :
    ∃ s, (⟨m.O.index, q.index, hn, "WAT-PROT", s, none⟩ : Conn) ∈
      dirProtOut aso asite waters protein cutoff := by
  have hrow : (m.O.index, hc, hn) ∈ waterHList waters := by
    apply mem_waterHList.mpr
    refine ⟨m, hm, ?_⟩
    rcases hhn with h | h
    · left
      rw [Prod.mk.injEq] at h
      rw [h.1, h.2]
    · right
      rw [Prod.mk.injEq] at h
      rw [h.1, h.2]
  obtain ⟨i, hi, hieq⟩ := List.getElem_of_mem hrow
  obtain ⟨nb, hnb, hnbeq⟩ := List.getElem_of_mem hq
  have hgH : (waterHList waters).getD i (0, ptDefault, "") = (m.O.index, hc, hn) := by
    rw [getD_eq_getElem_of_lt hi]; exact hieq
  have hgq : (protOList protein).getD nb oaDefault = q := by
    rw [getD_eq_getElem_of_lt hnb]; exact hnbeq
  have hqmem : nb ∈ kQuery ((protOList protein).map (fun a => a.coords))
      (((waterHList waters).getD i (0, ptDefault, "")).2.1) 10 cutoff := by
    rw [hgH]
    apply mem_kQuery_of_le
    · rw [List.length_map]; exact hk
    · rw [List.length_map]; exact hnb
    · rw [getD_map_of_lt _ _ hnb _ oaDefault, hgq]
      exact hd
  have hmatch : (i, nb) ∈ dirPOmatches waters (protOList protein) cutoff := by
    unfold dirPOmatches
    rw [List.mem_flatMap]
    exact ⟨i, List.mem_range.mpr hi, List.mem_map.mpr ⟨nb, hqmem, rfl⟩⟩
  refine ⟨siteStatusIdx aso asite m.O.index q.index, ?_⟩
  have hconn : dirPOconn aso asite waters (protOList protein) (i, nb) =
      ⟨m.O.index, q.index, hn, "WAT-PROT",
        siteStatusIdx aso asite m.O.index q.index, none⟩ := by
    unfold dirPOconn
    dsimp only
    rw [hgH, hgq]
  unfold dirProtOut
  apply List.mem_append_right
  rw [← hconn]
  exact List.mem_map_of_mem _ hmatch

/-- Completeness of the directed water-water branch with
`angle_criteria=None`: given at most k=5 waters, a hydrogen within the
cutoff of a different water's oxygen yields its edge provided the donor
oxygen index is smaller. -/
theorem dirWWnoneOut_complete {aso : Bool} {asite : Option (List ASMember)}
    {waters : List WaterMolecule} {cutoff : ℚ} (hk : waters.length ≤ 5)
    {m m2 : WaterMolecule} {hc : Pt} {hn : String}
    (hm : m ∈ waters) (hm2 : m2 ∈ waters)
    (hhn : (hc, hn) = (m.H1.coords, "H1") ∨ (hc, hn) = (m.H2.coords, "H2"))
    (hne : m.O.index ≠ m2.O.index) (hlt : m.O.index < m2.O.index)
    (hd : distLE (sqDist m2.O.coords hc) cutoff = true) :
    ∃ s, (⟨m.O.index, m2.O.index, hn, "WAT-WAT", s, none⟩ : Conn) ∈
      dirWWnoneOut aso asite waters cutoff := by
  have hrow : (m.O.index, hc, hn) ∈ waterHList waters := by
    apply mem_waterHList.mpr
    refine ⟨m, hm, ?_⟩
    rcases hhn with h | h
    · left
      rw [Prod.mk.injEq] at h
      rw [h.1, h.2]
    · right
      rw [Prod.mk.injEq] at h
      rw [h.1, h.2]
  obtain ⟨i, hi, hieq⟩ := List.getElem_of_mem hrow
  obtain ⟨nb, hnbw, hnbeq⟩ := List.getElem_of_mem hm2
  have hgH : (waterHList waters).getD i (0, ptDefault, "") = (m.O.index, hc, hn) := by
    rw [getD_eq_getElem_of_lt hi]; exact hieq
  have hnb : nb < (waterOList waters).length := by
    rw [length_waterOList]; exact hnbw
  have hgO : (waterOList waters).getD nb (0, ptDefault, "") =
      (m2.O.index, m2.O.coords, "O") := by
    unfold waterOList
    rw [getD_map_of_lt _ _ hnbw _ wmDefault, getD_eq_getElem_of_lt hnbw, hnbeq]
  have hqmem : nb ∈ kQuery ((waterOList waters).map (fun e => e.2.1))
      (((waterHList waters).getD i (0, ptDefault, "")).2.1) 5 cutoff := by
    rw [hgH]
    apply mem_kQuery_of_le
    · rw [List.length_map, length_waterOList]; exact hk
    · rw [List.length_map]; exact hnb
    · rw [getD_map_of_lt _ _ hnb _ (0, ptDefault, ""), hgO]
      exact hd
  have hcand : (i, nb) ∈ dirWWcand waters cutoff := by
    unfold dirWWcand
    rw [List.mem_flatMap]
    refine ⟨i, List.mem_range.mpr hi, ?_⟩
    rw [List.mem_filterMap]
    refine ⟨nb, hqmem, ?_⟩
    rw [if_pos]
    rw [hgH, hgO]
    exact hne
  refine ⟨siteStatusIdx aso asite m.O.index m2.O.index, ?_⟩
  have hconn : dirWWconn aso asite waters (i, nb) =
      ⟨m.O.index, m2.O.index, hn, "WAT-WAT",
        siteStatusIdx aso asite m.O.index m2.O.index, none⟩ := by
    unfold dirWWconn
    dsimp only
    rw [hgH, hgO]
  unfold dirWWnoneOut
  rw [List.mem_filterMap]
  refine ⟨(i, nb), hcand, ?_⟩
  rw [if_pos (by rw [hgH, hgO]; exact hlt), hconn]

/-- Claim C1 (amended).  Soundness: no finder ever emits an edge between
atoms farther apart than the cutoff — every emitted connection is witnessed
by scoped atoms of the right roles within the cutoff (conjuncts 1 and 2).
Completeness holds under the query limit (k=10 undirected, k=5 directed
water-water, k=10 directed protein) and, for directed water-water edges,
only when the donor oxygen index is smaller than the acceptor oxygen index
(conjuncts 3-6). -/
theorem C1_amended (net : WaterNetwork) (cutoff : ℚ)
    (water_active : List WaterMolecule) (protein_active : List OtherAtom)
    (active_site_only water_only : Bool) :
    (∀ cs, findConnections net cutoff water_active protein_active
        active_site_only water_only = .ok cs →
      ∀ c ∈ cs,
        (∃ m ∈ (if active_site_only then water_active else net.water_molecules),
         ∃ m2 ∈ (if active_site_only then water_active else net.water_molecules),
          c.index1 = m.O.index ∧ c.index2 = m2.O.index ∧
          distLE (sqDist m2.O.coords m.O.coords) cutoff = true) ∨
        (∃ m ∈ (if active_site_only then water_active else net.water_molecules),
         ∃ p ∈ (if active_site_only then protein_active else net.protein_atoms),
          c.index1 = p.index ∧ c.index2 = m.O.index ∧
          distLE (sqDist p.coords m.O.coords) cutoff = true)) ∧
    (∀ angle cs, findDirectedConnections net cutoff water_active protein_active
        active_site_only water_only angle = .ok cs →
      ∀ c ∈ cs,
        (∃ m ∈ (if active_site_only then water_active else net.water_molecules),
         ∃ p ∈ protHList (if active_site_only then protein_active else net.protein_atoms),
          c.index1 = p.index ∧ c.index2 = m.O.index ∧
          distLE (sqDist p.coords m.O.coords) cutoff = true) ∨
        (∃ m ∈ (if active_site_only then water_active else net.water_molecules),
         ∃ q ∈ protOList (if active_site_only then protein_active else net.protein_atoms),
         ∃ hco : Pt, (hco = m.H1.coords ∨ hco = m.H2.coords) ∧
          c.index1 = m.O.index ∧ c.index2 = q.index ∧
          distLE (sqDist q.coords hco) cutoff = true) ∨
        (∃ m ∈ (if active_site_only then water_active else net.water_molecules),
         ∃ m2 ∈ (if active_site_only then water_active else net.water_molecules),
         ∃ hco : Pt, (hco = m.H1.coords ∨ hco = m.H2.coords) ∧
          c.index1 = m.O.index ∧ c.index2 = m2.O.index ∧ m.O.index ≠ m2.O.index ∧
          distLE (sqDist m2.O.coords hco) cutoff = true)) ∧
    (∀ cs, findConnections net cutoff water_active protein_active
        active_site_only water_only = .ok cs →
      (if active_site_only then water_active else net.water_molecules).length ≤ 10 →
      ∀ m ∈ (if active_site_only then water_active else net.water_molecules),
      ∀ m2 ∈ (if active_site_only then water_active else net.water_molecules),
        m.O.index < m2.O.index →
        distLE (sqDist m2.O.coords m.O.coords) cutoff = true →
        ∃ s, (⟨m.O.index, m2.O.index, "O", "WAT-WAT", s, none⟩ : Conn) ∈ cs) ∧
    (∀ cs, findDirectedConnections net cutoff water_active protein_active
        active_site_only water_only none = .ok cs →
      water_only = false →
      (protHList (if active_site_only then protein_active else
        net.protein_atoms)).length ≤ 10 →
      ∀ p ∈ protHList (if active_site_only then protein_active else net.protein_atoms),
      ∀ m ∈ (if active_site_only then water_active else net.water_molecules),
        distLE (sqDist p.coords m.O.coords) cutoff = true →
        ∃ s, (⟨p.index, m.O.index, p.name, "WAT-PROT", s, none⟩ : Conn) ∈ cs) ∧
    (∀ cs, findDirectedConnections net cutoff water_active protein_active
        active_site_only water_only none = .ok cs →
      water_only = false →
      (protOList (if active_site_only then protein_active else
        net.protein_atoms)).length ≤ 10 →
      ∀ q ∈ protOList (if active_site_only then protein_active else net.protein_atoms),
      ∀ m ∈ (if active_site_only then water_active else net.water_molecules),
      ∀ hco : Pt, ∀ hn : String,
        ((hco, hn) = (m.H1.coords, "H1") ∨ (hco, hn) = (m.H2.coords, "H2")) →
        distLE (sqDist q.coords hco) cutoff = true →
        ∃ s, (⟨m.O.index, q.index, hn, "WAT-PROT", s, none⟩ : Conn) ∈ cs) ∧
    (∀ cs, findDirectedConnections net cutoff water_active protein_active
        active_site_only water_only none = .ok cs →
      (if active_site_only then water_active else net.water_molecules).length ≤ 5 →
      ∀ m ∈ (if active_site_only then water_active else net.water_molecules),
      ∀ m2 ∈ (if active_site_only then water_active else net.water_molecules),
      ∀ hco : Pt, ∀ hn : String,
        ((hco, hn) = (m.H1.coords, "H1") ∨ (hco, hn) = (m.H2.coords, "H2")) →
        m.O.index ≠ m2.O.index → m.O.index < m2.O.index →
        distLE (sqDist m2.O.coords hco) cutoff = true →
        ∃ s, (⟨m.O.index, m2.O.index, hn, "WAT-WAT", s, none⟩ : Conn) ∈ cs) := by
  refine ⟨?_, ?_, ?_, ?_, ?_, ?_⟩
  · intro cs hok c hc
    obtain ⟨rest, rfl, hrest⟩ := findConnections_ok_shape hok
    rcases List.mem_append.mp hc with hcw | hcr
    · obtain ⟨m, hm, m2, hm2, h1, h2, hd⟩ := watWatConns_sound hcw
      exact Or.inl ⟨m, hm, m2, hm2, h1, h2, hd⟩
    · simp only [findConnections] at hok
      by_cases he : (if active_site_only then water_active else
          net.water_molecules).isEmpty = true
      · rw [if_pos he] at hok
        exact Except.noConfusion hok
      · rw [if_neg he] at hok
        by_cases hwo : water_only = true
        · rw [if_pos hwo] at hok
          have := Except.ok.inj hok
          have hr : rest = [] := by
            have hlen := congrArg List.length this
            rw [List.length_append] at hlen
            have : rest.length = 0 := by omega
            exact List.length_eq_zero.mp this
          rw [hr] at hcr
          exact absurd hcr (List.not_mem_nil c)
        · rw [if_neg hwo] at hok
          by_cases hpe : (if active_site_only then protein_active else
              net.protein_atoms).isEmpty = true
          · rw [if_pos hpe] at hok
            exact Except.noConfusion hok
          · rw [if_neg hpe] at hok
            have h2 := Except.ok.inj hok
            have hr : rest = watProtConns net.active_site
                (if active_site_only then water_active else net.water_molecules)
                (if active_site_only then protein_active else net.protein_atoms)
                cutoff :=
              List.append_cancel_left h2.symm
            rw [hr] at hcr
            obtain ⟨m, hm, p, hp, h1, h2x, hd⟩ := watProtConns_sound hcr
            exact Or.inr ⟨m, hm, p, hp, h1, h2x, hd⟩
  · intro angle cs hok c hc
    rcases findDirected_ok_cases hok c hc with ⟨t, ht, rfl⟩ | ⟨t, ht, rfl⟩ | ⟨t, ht, rfl⟩
    · obtain ⟨m, hm, p, hp, hrowO, hgp, hd⟩ := dirPHmatches_elim ht
      refine Or.inl ⟨m, hm, p, hp, ?_, ?_, hd⟩
      · unfold dirPHconn
        dsimp only
        rw [hgp]
      · unfold dirPHconn
        dsimp only
        rw [hrowO]
    · obtain ⟨m, hm, q, hq, hco, hn, hhn, hgH, hgq, hd⟩ := dirPOmatches_elim ht
      have hcoeq : hco = m.H1.coords ∨ hco = m.H2.coords := by
        rcases hhn with h | h
        · rw [Prod.mk.injEq] at h
          exact Or.inl h.1
        · rw [Prod.mk.injEq] at h
          exact Or.inr h.1
      refine Or.inr (Or.inl ⟨m, hm, q, hq, hco, hcoeq, ?_, ?_, hd⟩)
      · unfold dirPOconn
        dsimp only
        rw [hgH]
      · unfold dirPOconn
        dsimp only
        rw [hgq]
    · obtain ⟨m, hm, m2, hm2, hco, hn, hhn, hgH, hgO, hne, hd⟩ := dirWWcand_elim ht
      have hcoeq : hco = m.H1.coords ∨ hco = m.H2.coords := by
        rcases hhn with h | h
        · rw [Prod.mk.injEq] at h
          exact Or.inl h.1
        · rw [Prod.mk.injEq] at h
          exact Or.inr h.1
      refine Or.inr (Or.inr ⟨m, hm, m2, hm2, hco, hcoeq, ?_, ?_, hne, hd⟩)
      · unfold dirWWconn
        dsimp only
        rw [hgH]
      · unfold dirWWconn
        dsimp only
        rw [hgO]
  · intro cs hok hk m hm m2 hm2 hlt hd
    obtain ⟨rest, rfl, hrest⟩ := findConnections_ok_shape hok
    exact ⟨siteStatusWW net.active_site m.resid,
      List.mem_append_left _ (watWatConns_complete hk hm hm2 hlt hd)⟩
  · intro cs hok hwo hk p hp m hm hd
    rw [findDirected_none_eq] at hok
    have hcs := Except.ok.inj hok
    subst hwo
    have hex : ∃ s, (⟨p.index, m.O.index, p.name, "WAT-PROT", s, none⟩ : Conn) ∈
        dirProtOut active_site_only net.active_site
          (if active_site_only then water_active else net.water_molecules)
          (if active_site_only then protein_active else net.protein_atoms) cutoff :=
      dirProtOut_completeH hk hp hm hd
    obtain ⟨s, hsmem⟩ := hex
    refine ⟨s, ?_⟩
    rw [← hcs]
    exact List.mem_append_left _ hsmem
  · intro cs hok hwo hk q hq m hm hco hn hhn hd
    rw [findDirected_none_eq] at hok
    have hcs := Except.ok.inj hok
    subst hwo
    have hex : ∃ s, (⟨m.O.index, q.index, hn, "WAT-PROT", s, none⟩ : Conn) ∈
        dirProtOut active_site_only net.active_site
          (if active_site_only then water_active else net.water_molecules)
          (if active_site_only then protein_active else net.protein_atoms) cutoff :=
      dirProtOut_completeO hk hq hm hhn hd
    obtain ⟨s, hsmem⟩ := hex
    refine ⟨s, ?_⟩
    rw [← hcs]
    exact List.mem_append_left _ hsmem
  · intro cs hok hk m hm m2 hm2 hco hn hhn hne hlt hd
    rw [findDirected_none_eq] at hok
    have hcs := Except.ok.inj hok
    have hex : ∃ s, (⟨m.O.index, m2.O.index, hn, "WAT-WAT", s, none⟩ : Conn) ∈
        dirWWnoneOut active_site_only net.active_site
          (if active_site_only then water_active else net.water_molecules) cutoff :=
      dirWWnoneOut_complete hk hm hm2 hhn hne hlt hd
    obtain ⟨s, hsmem⟩ := hex
    refine ⟨s, ?_⟩
    rw [← hcs]
    exact List.mem_append_right _ hsmem

set_option maxRecDepth 10000 in
/-- Witness for the amended C1: the undirected completeness conjunct applied
to `netC1` and the directed water-water completeness conjunct applied to
`netC3w`. -/
theorem C1_witness :
    (∃ s, (⟨1, 2, "O", "WAT-WAT", s, none⟩ : Conn) ∈ [connC2w]) ∧
    (∃ s, (⟨1, 2, "H1", "WAT-WAT", s, none⟩ : Conn) ∈ [connC3w]) := by
  constructor
  · exact (C1_amended netC1 (33 / 10) [] [] false true).2.2.1 [connC2w]
      (by with_unfolding_all rfl) (by decide) w1C1 (by with_unfolding_all decide)
      w2C1 (by with_unfolding_all decide) (by decide) (by with_unfolding_all decide)
  · exact (C1_amended netC3w 2 [] [] false true).2.2.2.2.2 [connC3w]
      (by with_unfolding_all rfl) (by decide) wA3 (by with_unfolding_all decide)
      wB3 (by with_unfolding_all decide) wA3.H1.coords "H1" (Or.inl rfl)
      (by decide) (by decide) (by with_unfolding_all decide)

theorem nodes_addEdge (g : Graph) (u v : ℕ) (ea : EdgeAttrs) :
    (addEdge g u v ea).nodes = (ensureNode (ensureNode g u) v).nodes := by
  unfold addEdge
  dsimp only
  split <;> rfl

theorem addWatNodes_cons (g : Graph) (hd : WaterMolecule)
    (tl : List WaterMolecule) : addWatNodes g (hd :: tl) =
    addWatNodes (addNode g hd.O.index ⟨hd.O.coords, "WAT", none⟩) tl := rfl

theorem mem_nodes_ensureNode {g : Graph} {e : ℕ × Option NodeAttrs} {id : ℕ}
    (h : e ∈ g.nodes) : e ∈ (ensureNode g id).nodes := by
  unfold ensureNode
  split
  · exact h
  · exact List.mem_append_left _ h

theorem mem_nodes_addEdge {g : Graph} {e : ℕ × Option NodeAttrs} {u v : ℕ}
    {ea : EdgeAttrs} (h : e ∈ g.nodes) : e ∈ (addEdge g u v ea).nodes := by
  rw [nodes_addEdge]
  exact mem_nodes_ensureNode (mem_nodes_ensureNode h)

theorem mem_nodes_foldl_addEdge {cs : List Conn} {g : Graph}
    {e : ℕ × Option NodeAttrs} (h : e ∈ g.nodes) :
    e ∈ (cs.foldl (fun g c => addEdge g c.index1 c.index2 ⟨c.btype, c.site⟩) g).nodes := by
  induction cs generalizing g with
  | nil => exact h
  | cons c tl ih => exact ih (mem_nodes_addEdge h)

theorem mem_addNode_self {g : Graph} {id : ℕ} {attrs : NodeAttrs} :
    (id, some attrs) ∈ (addNode g id attrs).nodes := by
  unfold addNode
  by_cases hany : (g.nodes.any (fun p => p.1 == id)) = true
  · rw [if_pos hany]
    rw [List.any_eq_true] at hany
    obtain ⟨p0, hp0, hbeq⟩ := hany
    refine List.mem_map.mpr ⟨p0, hp0, ?_⟩
    rw [if_pos hbeq]
  · rw [if_neg hany]
    exact List.mem_append_right _ (List.mem_singleton.mpr rfl)

theorem mem_addNode_other {g : Graph} {e : ℕ × Option NodeAttrs} {id : ℕ}
    {attrs : NodeAttrs} (h : e ∈ g.nodes) (hne : e.1 ≠ id) :
    e ∈ (addNode g id attrs).nodes := by
  unfold addNode
  split
  · refine List.mem_map.mpr ⟨e, h, ?_⟩
    rw [if_neg (by simp [hne])]
  · exact List.mem_append_left _ h

theorem mem_addWatNodes_preserve {ws : List WaterMolecule} {g : Graph}
    {e : ℕ × Option NodeAttrs} (h : e ∈ g.nodes)
    (hne : ∀ m ∈ ws, m.O.index ≠ e.1) : e ∈ (addWatNodes g ws).nodes := by
  induction ws generalizing g with
  | nil => exact h
  | cons hd tl ih =>
    exact ih (mem_addNode_other h (fun hc => hne hd (List.mem_cons_self hd tl) hc.symm))
      (fun m hm => hne m (List.mem_cons_of_mem hd hm))

theorem mem_addWatNodes_self {ws : List WaterMolecule} {g : Graph}
    (hnodup : (ws.map (fun m => m.O.index)).Nodup) {m : WaterMolecule}
    (hm : m ∈ ws) :
    (m.O.index, some ⟨m.O.coords, "WAT", none⟩) ∈ (addWatNodes g ws).nodes := by
  induction ws generalizing g with
  | nil => cases hm
  | cons hd tl ih =>
    rw [List.map_cons, List.nodup_cons] at hnodup
    rcases List.mem_cons.mp hm with rfl | hm2
    · rw [addWatNodes_cons]
      refine mem_addWatNodes_preserve mem_addNode_self ?_
      intro m2 hm2 hc
      have hc2 : m2.O.index = m.O.index := hc
      exact hnodup.1 (hc2 ▸ List.mem_map_of_mem (fun m => m.O.index) hm2)
    · rw [addWatNodes_cons]
      exact ih hnodup.2 hm2

theorem addProtNodesAS_preserve {msal : List String} {ps : List OtherAtom}
    {g g2 : Graph} {e : ℕ × Option NodeAttrs}
    (hok : addProtNodesAS msal g ps = .ok g2) (h : e ∈ g.nodes)
    (hne : ∀ p ∈ ps, p.index ≠ e.1) : e ∈ g2.nodes := by
  induction ps generalizing g with
  | nil =>
    rw [← Except.ok.inj hok]
    exact h
  | cons p tl ih =>
    unfold addProtNodesAS at hok
    cases hmi : pyIdx msal ((p.resid : ℤ) - 1) with
    | error e2 =>
      rw [hmi] at hok
      exact Except.noConfusion hok
    | ok mi =>
      rw [hmi] at hok
      exact ih hok
        (mem_addNode_other h (fun hc => hne p (List.mem_cons_self p tl) hc.symm))
        (fun q hq => hne q (List.mem_cons_of_mem p hq))

theorem addProtNodesAS_adds {msal : List String} {ps : List OtherAtom}
    {g g2 : Graph} (hok : addProtNodesAS msal g ps = .ok g2)
    (hnodup : (ps.map (fun p => p.index)).Nodup) {p : OtherAtom} (hp : p ∈ ps) :
    ∃ mi, (p.index, some ⟨p.coords, "PROTEIN", some mi⟩) ∈ g2.nodes := by
  induction ps generalizing g with
  | nil => cases hp
  | cons hd tl ih =>
    rw [List.map_cons, List.nodup_cons] at hnodup
    unfold addProtNodesAS at hok
    cases hmi : pyIdx msal ((hd.resid : ℤ) - 1) with
    | error e2 =>
      rw [hmi] at hok
      exact Except.noConfusion hok
    | ok mi =>
      rw [hmi] at hok
      rcases List.mem_cons.mp hp with rfl | hp2
      · refine ⟨mi, addProtNodesAS_preserve hok mem_addNode_self ?_⟩
        intro q hq hc
        have hc2 : q.index = p.index := hc
        exact hnodup.1 (hc2 ▸ List.mem_map_of_mem (fun p => p.index) hq)
      · exact ih hok hnodup.2 hp2

/-- The no-PROTEIN-node invariant used by the all-atoms conjunct of C9. -/
def NoProtNodes (g : Graph) : Prop :=
  ∀ pr ∈ g.nodes, ∀ a : NodeAttrs, pr.2 = some a → a.category ≠ "PROTEIN"

theorem noProt_emptyGraph (d : Bool) : NoProtNodes (emptyGraph d) := by
  intro pr hpr
  cases hpr

theorem noProt_ensureNode {g : Graph} {id : ℕ} (h : NoProtNodes g) :
    NoProtNodes (ensureNode g id) := by
  intro pr hpr a ha
  unfold ensureNode at hpr
  split at hpr
  · exact h pr hpr a ha
  · rcases List.mem_append.mp hpr with hmem | hmem
    · exact h pr hmem a ha
    · rw [List.mem_singleton.mp hmem] at ha
      exact Option.noConfusion ha

theorem noProt_addEdge {g : Graph} {u v : ℕ} {ea : EdgeAttrs}
    (h : NoProtNodes g) : NoProtNodes (addEdge g u v ea) := by
  intro pr hpr a ha
  rw [nodes_addEdge] at hpr
  exact noProt_ensureNode (noProt_ensureNode h) pr hpr a ha

theorem noProt_foldl_addEdge {cs : List Conn} {g : Graph} (h : NoProtNodes g) :
    NoProtNodes (cs.foldl (fun g c => addEdge g c.index1 c.index2
      ⟨c.btype, c.site⟩) g) := by
  induction cs generalizing g with
  | nil => exact h
  | cons c tl ih => exact ih (noProt_addEdge h)

theorem noProt_addNodeWat {g : Graph} {id : ℕ} {pos : Pt} (h : NoProtNodes g) :
    NoProtNodes (addNode g id ⟨pos, "WAT", none⟩) := by
  intro pr hpr a ha
  unfold addNode at hpr
  split at hpr
  · obtain ⟨p0, hp0, heq⟩ := List.mem_map.mp hpr
    by_cases hb : (p0.1 == id) = true
    · rw [if_pos hb] at heq
      rw [← heq] at ha
      have : a = ⟨pos, "WAT", none⟩ := by
        have := Option.some.inj ha
        exact this.symm
      rw [this]
      intro hcontra
      have hcontra2 : "WAT" = "PROTEIN" := hcontra
      exact absurd hcontra2 (by decide)
    · rw [if_neg hb] at heq
      rw [← heq] at ha
      exact h p0 hp0 a ha
  · rcases List.mem_append.mp hpr with hmem | hmem
    · exact h pr hmem a ha
    · rw [List.mem_singleton.mp hmem] at ha
      have : a = ⟨pos, "WAT", none⟩ := (Option.some.inj ha).symm
      rw [this]
      intro hcontra
      have hcontra2 : "WAT" = "PROTEIN" := hcontra
      exact absurd hcontra2 (by decide)

theorem noProt_addWatNodes {ws : List WaterMolecule} {g : Graph}
    (h : NoProtNodes g) : NoProtNodes (addWatNodes g ws) := by
  induction ws generalizing g with
  | nil => exact h
  | cons hd tl ih => exact ih (noProt_addNodeWat h)

set_option maxRecDepth 10000 in
/-- Witness for C5 at `netC10` / `refC10`. -/
theorem C5_witness :
    (∀ a ∈ netC10.protein_atoms,
      (ASMember.prot a ∈ [ASMember.prot pC10] ↔
        (a.resid ∈ refC10.map RefAtom.resid ∨
          protNearRef none (refC10.map RefAtom.position) 8 a = true))) ∧
    (∀ m ∈ netC10.water_molecules,
      (ASMember.wat m ∈ [ASMember.prot pC10] ↔
        watNearRef (refC10.map RefAtom.position) 8 m = true)) ∧
    (∀ a ∈ netC10.protein_atoms,
      (a ∈ [pC10] ↔
        (a.resid ∉ refC10.map RefAtom.resid ∧
          protNearRef none (refC10.map RefAtom.position) 8 a = true))) ∧
    (∀ m ∈ netC10.water_molecules,
      (m ∈ ([] : List WaterMolecule) ↔
        watNearRef (refC10.map RefAtom.position) 8 m = true)) :=
  C5_active_site_spec netC10 refC10 none 8 [ASMember.prot pC10] [pC10] []
    (by decide) (by with_unfolding_all rfl)

set_option maxRecDepth 10000 in
/-- Claim C1, counterexample: in `netC1` the donor hydrogen `w2C1.H1` is
within the 2.0 cutoff of the acceptor oxygen `w1C1.O` and the two atoms
belong to different waters, yet `find_directed_connections` (with
`angle_criteria=None`) returns NO edge at all: the source only appends a
water-water directed edge when the donor oxygen index is SMALLER than the
acceptor oxygen index (line 429), and here it is larger. -/
theorem C1_counterexample :
    distLE (sqDist w2C1.H1.coords w1C1.O.coords) 2 = true ∧
    w2C1.O.index ≠ w1C1.O.index ∧
    findDirectedConnections netC1 2 [] [] false true none = Except.ok [] := by
  refine ⟨?_, by decide, ?_⟩ <;> with_unfolding_all rfl

set_option maxRecDepth 10000 in
/-- Claim C3, counterexample to strictness: on a network with a single water
there is no inter-water candidate pair, so the edge set with an angle
criterion equals the edge set with `angle_criteria=None` (both empty); the
None edge set is therefore not a STRICT superset for every input.  The
predicate models an arbitrary nonzero threshold (it is never consulted). -/
theorem C3_counterexample :
    findDirectedConnections netOneWater 2 [] [] false true (some (fun _ _ => false)) =
      findDirectedConnections netOneWater 2 [] [] false true none ∧
    findDirectedConnections netOneWater 2 [] [] false true none = Except.ok [] := by
  refine ⟨?_, ?_⟩ <;> with_unfolding_all rfl

set_option maxRecDepth 10000 in
/-- Claim C4, counterexample: in `netC4` the two waters are bonded and the
active site contains (the residue of) the SECOND endpoint water `w2C4`, yet
the emitted WAT-WAT edge is tagged not_active_site: the source compares only
`waters[i].resid` — the residue of the lower-index endpoint — against the
active-site members (line 188). -/
theorem C4_counterexample :
    findConnections netC4 (33 / 10) [] [] false true = Except.ok [connC4] ∧
    (netC4.active_site.getD []).any (fun f => f.resid == w2C4.resid) = true ∧
    w2C4.O.index = 2 := by
  refine ⟨?_, ?_, ?_⟩ <;> with_unfolding_all rfl

set_option maxRecDepth 10000 in
/-- Claim C9, counterexample: `netC9` holds one water and one (distant)
protein atom; in the all-atoms scoping mode `generate_oxygen_network`
produces a graph with a single node — the water oxygen — and no node of
category PROTEIN for the protein atom, because the all-atoms branch iterates
over the never-populated `self.protein_subset` (source line 498). -/
theorem C9_counterexample :
    generateOxygenNetwork netC9 none none none 8 false false (33 / 10) =
      Except.ok gC9res ∧
    netC9.protein_atoms.length = 1 ∧
    gC9res.nodes.length = 1 ∧
    gC9res.nodes.all (fun p => !(p.2.map NodeAttrs.category == some "PROTEIN")) = true := by
  refine ⟨?_, ?_, ?_, ?_⟩ <;> with_unfolding_all rfl

/-- Claim C6: `get_density` evaluated on a 3-node/2-edge graph.  With
selection all it returns edges/(N(N-1)/2) = 2/3; with selection
active_site it raises UnboundLocalError, because line 586 iterates
`S.edges` before the local `S` is ever assigned (every sibling metric uses
`self.graph.edges` there); and on an empty graph the density division is by
zero.  This settles the claim as a code defect for the non-all selections. -/
theorem C6_density_eval :
    getDensity gC6 "all" = Except.ok (2 / 3) ∧
    getDensity gC6 "active_site" =
      Except.error "UnboundLocalError: local variable S referenced before assignment" ∧
    getDensity gC6 "not_active_site" =
      Except.error "UnboundLocalError: local variable S referenced before assignment" ∧
    getDensity (emptyGraph false) "all" =
      Except.error "ZeroDivisionError: float division by zero" := by
  refine ⟨?_, ?_, ?_, ?_⟩ <;> with_unfolding_all rfl

set_option maxRecDepth 10000 in
/-- Claim C7: `get_CPL` on the disconnected graph `gC7` (components of size
2 and 1).  With `calculate_path=all` and `exclude_single_points=True` it
returns exactly the CPL of the size-2 component (1), and with
`exclude_single_points=False` the mean of the per-component values (1/2), as
the claim describes; but with `calculate_path=longest` it raises
AttributeError, because line 679 passes the node SET returned by
`max(nx.connected_components(S), key=len)` — not a subgraph — to
`nx.average_shortest_path_length`. -/
theorem C7_cpl_eval :
    getCPL gC7 "all" "all" true = Except.ok 1 ∧
    getCPL gC7 "all" "all" false = Except.ok (1 / 2) ∧
    getCPL gC7 "all" "longest" false =
      Except.error "AttributeError: set object has no attribute is_directed" := by
  refine ⟨?_, ?_, ?_⟩ <;> with_unfolding_all rfl

set_option maxRecDepth 10000 in
/-- Claim C8: with zero indexed points `find_connections` FAULTS instead of
returning no matches: `np.array([])` built from an empty coordinate list is
1-dimensional and `cKDTree` rejects it (the water tree with zero waters, and
the protein tree with zero protein atoms when not water_only).
`find_directed_connections` reshapes its empty arrays to (0,3) and returns
the empty connection list without failing. -/
theorem C8_empty_index_eval :
    findConnections netC8 (33 / 10) [] [] false false =
      Except.error "ValueError: data must be 2 dimensions" ∧
    findConnections netC8 (33 / 10) [] [] false true =
      Except.error "ValueError: data must be 2 dimensions" ∧
    findConnections netOneWater (33 / 10) [] [] false false =
      Except.error "ValueError: data must be 2 dimensions" ∧
    findDirectedConnections netC8 2 [] [] false false none = Except.ok [] ∧
    findDirectedConnections netOneWater 2 [] [] false false none = Except.ok [] := by
  refine ⟨?_, ?_, ?_, ?_, ?_⟩ <;> with_unfolding_all rfl

set_option maxRecDepth 10000 in
/-- Claim C10: `generate_oxygen_network` in active-site-only mode on a
network whose single protein atom has resid 5 while the supplied alignment
map has length 1: the node-construction lookup
`MSA_indices[molecule.resid-1]` (source line 485) is unguarded, so the
builder raises IndexError instead of degrading to a no-alignment value. -/
theorem C10_msa_eval :
    generateOxygenNetwork netC10 none (some ["A"]) (some refC10) 8 true false (33 / 10) =
      Except.error "IndexError: list index out of range" := by
  with_unfolding_all rfl


theorem genOxyAS_eq (net : WaterNetwork) (box : Option Pt)
    (msa : Option (List String)) (ref : List RefAtom) (radius cutoff : ℚ)
    (wo : Bool) (asl : List ASMember) (pa : List OtherAtom)
    (wa : List WaterMolecule)
    (hsel : selectActiveSite net ref box radius = .ok (asl, pa, wa)) :
    generateOxygenNetwork net box msa (some ref) radius true wo cutoff =
      match (if wo = true then
          (Except.ok (addWatNodes (emptyGraph false) wa) : Except String Graph)
          else addProtNodesAS (msaListOf msa) (addWatNodes (emptyGraph false) wa) pa) with
      | .error e => .error e
      | .ok g2 =>
        match findConnections { net with active_site := some asl } cutoff wa pa
            true wo with
        | .error e => .error e
        | .ok cs => .ok ((cs.filter (fun c => c.site == "active_site")).foldl
            (fun g c => addEdge g c.index1 c.index2 ⟨c.btype, c.site⟩) g2) := by
  unfold generateOxygenNetwork
  dsimp only
  rw [hsel]
  rfl

theorem genDirAS_eq (net : WaterNetwork) (box : Option Pt)
    (msa : Option (List String)) (ref : List RefAtom) (radius cutoff : ℚ)
    (wo : Bool) (ac : Option (Pt → Pt → Bool)) (asl : List ASMember)
    (pa : List OtherAtom) (wa : List WaterMolecule)
    (hsel : selectActiveSite net ref box radius = .ok (asl, pa, wa)) :
    generateDirectedNetwork net box msa (some ref) radius true wo ac cutoff =
      match (if wo = true then
          (Except.ok (addWatNodes (emptyGraph true) wa) : Except String Graph)
          else addProtNodesAS (msaListOf msa) (addWatNodes (emptyGraph true) wa) pa) with
      | .error e => .error e
      | .ok g2 =>
        match findDirectedConnections { net with active_site := some asl } cutoff
            wa pa true wo ac with
        | .error e => .error e
        | .ok cs => .ok ((cs.filter (fun c => c.site == "active_site")).foldl
            (fun g c => addEdge g c.index1 c.index2 ⟨c.btype, c.site⟩) g2) := by
  unfold generateDirectedNetwork
  dsimp only
  rw [hsel]
  rfl

theorem genOxyAll_eq (net : WaterNetwork) (box : Option Pt)
    (msa : Option (List String)) (radius cutoff : ℚ) (wo : Bool)
    (hsub : net.protein_subset = []) :
    generateOxygenNetwork net box msa none radius false wo cutoff =
      match findConnections net cutoff [] [] false wo with
      | .error e => .error e
      | .ok cs => .ok (cs.foldl
          (fun g c => addEdge g c.index1 c.index2 ⟨c.btype, c.site⟩)
          (addWatNodes (emptyGraph false) net.water_molecules)) := by
  unfold generateOxygenNetwork
  rw [hsub]
  cases wo <;> rfl

theorem genDirAll_eq (net : WaterNetwork) (box : Option Pt)
    (msa : Option (List String)) (radius cutoff : ℚ) (wo : Bool)
    (ac : Option (Pt → Pt → Bool)) (hsub : net.protein_subset = []) :
    generateDirectedNetwork net box msa none radius false wo ac cutoff =
      match findDirectedConnections net cutoff [] [] false wo none with
      | .error e => .error e
      | .ok cs => .ok (cs.foldl
          (fun g c => addEdge g c.index1 c.index2 ⟨c.btype, c.site⟩)
          (addWatNodes (emptyGraph true) net.water_molecules)) := by
  unfold generateDirectedNetwork
  rw [hsub]
  cases wo <;> rfl

theorem asNodes_aux {msal : List String} {wa : List WaterMolecule}
    {pa : List OtherAtom} {d wo : Bool} {g2 : Graph}
    (h2 : (if wo = true then
        (Except.ok (addWatNodes (emptyGraph d) wa) : Except String Graph)
        else addProtNodesAS msal (addWatNodes (emptyGraph d) wa) pa) = .ok g2)
    (hnw : (wa.map (fun m => m.O.index)).Nodup)
    (hnp : (pa.map (fun p => p.index)).Nodup)
    (hdisj : ∀ p ∈ pa, ∀ m ∈ wa, p.index ≠ m.O.index) :
    (∀ m ∈ wa, (m.O.index, some ⟨m.O.coords, "WAT", none⟩) ∈ g2.nodes) ∧
    (wo = false → ∀ p ∈ pa, ∃ mi,
      (p.index, some ⟨p.coords, "PROTEIN", some mi⟩) ∈ g2.nodes) := by
  by_cases hwo : wo = true
  · rw [if_pos hwo] at h2
    rw [← Except.ok.inj h2]
    refine ⟨fun m hm => mem_addWatNodes_self hnw hm, fun hwf => ?_⟩
    exact absurd (hwo.symm.trans hwf) (by decide)
  · rw [if_neg hwo] at h2
    constructor
    · intro m hm
      refine addProtNodesAS_preserve h2 (mem_addWatNodes_self hnw hm) ?_
      intro p hp hc
      exact hdisj p hp m hm hc
    · intro hwf p hp
      exact addProtNodesAS_adds h2 hnp hp

set_option maxRecDepth 10000 in
/-- Claim C9 (amended): in the active-site-only mode both network builders
add one category-WAT node per included water oxygen and, unless water-only,
one category-PROTEIN node (with its MSA lookup value) per included protein
atom; in the all-atoms mode the protein loop iterates `self.protein_subset`,
which this module never populates, so with `protein_subset = []` the
builders add the WAT nodes but no node of category PROTEIN at all. -/
theorem C9_amended (net : WaterNetwork) (box : Option Pt)
    (msa : Option (List String)) (ref : List RefAtom) (radius cutoff : ℚ)
    (wo : Bool) (ac : Option (Pt → Pt → Bool)) (asl : List ASMember)
    (pa : List OtherAtom) (wa : List WaterMolecule) :
    (∀ g, selectActiveSite net ref box radius = .ok (asl, pa, wa) →
      (wa.map (fun m => m.O.index)).Nodup →
      (pa.map (fun p => p.index)).Nodup →
      (∀ p ∈ pa, ∀ m ∈ wa, p.index ≠ m.O.index) →
      generateOxygenNetwork net box msa (some ref) radius true wo cutoff = .ok g →
      (∀ m ∈ wa, (m.O.index, some ⟨m.O.coords, "WAT", none⟩) ∈ g.nodes) ∧
      (wo = false → ∀ p ∈ pa, ∃ mi,
        (p.index, some ⟨p.coords, "PROTEIN", some mi⟩) ∈ g.nodes)) ∧
    (∀ g, selectActiveSite net ref box radius = .ok (asl, pa, wa) →
      (wa.map (fun m => m.O.index)).Nodup →
      (pa.map (fun p => p.index)).Nodup →
      (∀ p ∈ pa, ∀ m ∈ wa, p.index ≠ m.O.index) →
      generateDirectedNetwork net box msa (some ref) radius true wo ac cutoff = .ok g →
      (∀ m ∈ wa, (m.O.index, some ⟨m.O.coords, "WAT", none⟩) ∈ g.nodes) ∧
      (wo = false → ∀ p ∈ pa, ∃ mi,
        (p.index, some ⟨p.coords, "PROTEIN", some mi⟩) ∈ g.nodes)) ∧
    (∀ g, net.protein_subset = [] →
      (net.water_molecules.map (fun m => m.O.index)).Nodup →
      generateOxygenNetwork net box msa none radius false wo cutoff = .ok g →
      (∀ m ∈ net.water_molecules,
        (m.O.index, some ⟨m.O.coords, "WAT", none⟩) ∈ g.nodes) ∧ NoProtNodes g) ∧
    (∀ g, net.protein_subset = [] →
      (net.water_molecules.map (fun m => m.O.index)).Nodup →
      generateDirectedNetwork net box msa none radius false wo ac cutoff = .ok g →
      (∀ m ∈ net.water_molecules,
        (m.O.index, some ⟨m.O.coords, "WAT", none⟩) ∈ g.nodes) ∧ NoProtNodes g) := by
  refine ⟨?_, ?_, ?_, ?_⟩
  · intro g hsel hnw hnp hdisj hok
    rw [genOxyAS_eq net box msa ref radius cutoff wo asl pa wa hsel] at hok
    split at hok
    · exact Except.noConfusion hok
    · rename_i g2 heq
      split at hok
      · exact Except.noConfusion hok
      · rename_i cs hfc
        obtain ⟨hW, hP⟩ := asNodes_aux heq hnw hnp hdisj
        rw [← Except.ok.inj hok]
        refine ⟨fun m hm => mem_nodes_foldl_addEdge (hW m hm), fun hwf p hp => ?_⟩
        obtain ⟨mi, hmem⟩ := hP hwf p hp
        exact ⟨mi, mem_nodes_foldl_addEdge hmem⟩
  · intro g hsel hnw hnp hdisj hok
    rw [genDirAS_eq net box msa ref radius cutoff wo ac asl pa wa hsel] at hok
    split at hok
    · exact Except.noConfusion hok
    · rename_i g2 heq
      split at hok
      · exact Except.noConfusion hok
      · rename_i cs hfc
        obtain ⟨hW, hP⟩ := asNodes_aux heq hnw hnp hdisj
        rw [← Except.ok.inj hok]
        refine ⟨fun m hm => mem_nodes_foldl_addEdge (hW m hm), fun hwf p hp => ?_⟩
        obtain ⟨mi, hmem⟩ := hP hwf p hp
        exact ⟨mi, mem_nodes_foldl_addEdge hmem⟩
  · intro g hsub hnw hok
    rw [genOxyAll_eq net box msa radius cutoff wo hsub] at hok
    split at hok
    · exact Except.noConfusion hok
    · rename_i cs hfc
      rw [← Except.ok.inj hok]
      refine ⟨fun m hm => mem_nodes_foldl_addEdge (mem_addWatNodes_self hnw hm), ?_⟩
      exact noProt_foldl_addEdge (noProt_addWatNodes (noProt_emptyGraph false))
  · intro g hsub hnw hok
    rw [genDirAll_eq net box msa radius cutoff wo ac hsub] at hok
    split at hok
    · exact Except.noConfusion hok
    · rename_i cs hfc
      rw [← Except.ok.inj hok]
      refine ⟨fun m hm => mem_nodes_foldl_addEdge (mem_addWatNodes_self hnw hm), ?_⟩
      exact noProt_foldl_addEdge (noProt_addWatNodes (noProt_emptyGraph true))

set_option maxRecDepth 10000 in
/-- Witness for C9: the amended node statement instantiated on concrete
networks, in all four builder modes. -/
theorem C9_witness :
    (∃ g, generateOxygenNetwork netC9w none (some ["A", "B", "C", "D", "E"]) (some refC9w) 8 true false 2 =
        Except.ok g ∧
      (wC9w.O.index, some ⟨wC9w.O.coords, "WAT", none⟩) ∈ g.nodes ∧
      ∃ mi, (pC9w.index, some ⟨pC9w.coords, "PROTEIN", some mi⟩) ∈ g.nodes) ∧
    (∃ g, generateDirectedNetwork netC9w none (some ["A", "B", "C", "D", "E"]) (some refC9w) 8 true false
        none 2 = Except.ok g ∧
      (wC9w.O.index, some ⟨wC9w.O.coords, "WAT", none⟩) ∈ g.nodes ∧
      ∃ mi, (pC9w.index, some ⟨pC9w.coords, "PROTEIN", some mi⟩) ∈ g.nodes) ∧
    (∃ g, generateOxygenNetwork netC9 none none none 8 false false (33 / 10) =
        Except.ok g ∧
      (wC9.O.index, some ⟨wC9.O.coords, "WAT", none⟩) ∈ g.nodes ∧ NoProtNodes g) ∧
    (∃ g, generateDirectedNetwork netC9 none none none 8 false false none
        (33 / 10) = Except.ok g ∧
      (wC9.O.index, some ⟨wC9.O.coords, "WAT", none⟩) ∈ g.nodes ∧ NoProtNodes g) := by
  obtain ⟨hA, hB, hC, hD⟩ := C9_amended netC9w none (some ["A", "B", "C", "D", "E"]) refC9w 8 2 false none
    [ASMember.prot pC9w, ASMember.wat wC9w] [pC9w] [wC9w]
  obtain ⟨hA2, hB2, hC2, hD2⟩ := C9_amended netC9 none none refC9w 8 (33 / 10)
    false none [] [] [wC9]
  have hsel : selectActiveSite netC9w refC9w none 8 =
      Except.ok ([ASMember.prot pC9w, ASMember.wat wC9w], [pC9w], [wC9w]) := by
    with_unfolding_all rfl
  have hnw : ([wC9w].map (fun m => m.O.index)).Nodup := by decide
  have hnp : ([pC9w].map (fun p => p.index)).Nodup := by decide
  have hdisj : ∀ p ∈ [pC9w], ∀ m ∈ [wC9w], p.index ≠ m.O.index := by decide
  have hok1 : ∃ g, generateOxygenNetwork netC9w none (some ["A", "B", "C", "D", "E"]) (some refC9w) 8 true
      false 2 = Except.ok g := ⟨_, by with_unfolding_all rfl⟩
  have hok2 : ∃ g, generateDirectedNetwork netC9w none (some ["A", "B", "C", "D", "E"]) (some refC9w) 8 true
      false none 2 = Except.ok g := ⟨_, by with_unfolding_all rfl⟩
  have hok3 : ∃ g, generateOxygenNetwork netC9 none none none 8 false false
      (33 / 10) = Except.ok g := ⟨_, by with_unfolding_all rfl⟩
  have hok4 : ∃ g, generateDirectedNetwork netC9 none none none 8 false false
      none (33 / 10) = Except.ok g := ⟨_, by with_unfolding_all rfl⟩
  have hnwAll : (netC9.water_molecules.map (fun m => m.O.index)).Nodup := by decide
  have hsub : netC9.protein_subset = [] := rfl
  obtain ⟨g1, hg1⟩ := hok1
  obtain ⟨g2, hg2⟩ := hok2
  obtain ⟨g3, hg3⟩ := hok3
  obtain ⟨g4, hg4⟩ := hok4
  refine ⟨⟨g1, hg1, ?_⟩, ⟨g2, hg2, ?_⟩, ⟨g3, hg3, ?_⟩, ⟨g4, hg4, ?_⟩⟩
  · obtain ⟨hW, hP⟩ := hA g1 hsel hnw hnp hdisj hg1
    exact ⟨hW wC9w (List.mem_singleton.mpr rfl),
      hP rfl pC9w (List.mem_singleton.mpr rfl)⟩
  · obtain ⟨hW, hP⟩ := hB g2 hsel hnw hnp hdisj hg2
    exact ⟨hW wC9w (List.mem_singleton.mpr rfl),
      hP rfl pC9w (List.mem_singleton.mpr rfl)⟩
  · obtain ⟨hW, hP⟩ := hC2 g3 hsub hnwAll hg3
    exact ⟨hW wC9 (List.mem_singleton.mpr rfl), hP⟩
  · obtain ⟨hW, hP⟩ := hD2 g4 hsub hnwAll hg4
    exact ⟨hW wC9 (List.mem_singleton.mpr rfl), hP⟩

end WatCon
